import Mathlib

set_option maxRecDepth 4000
set_option exponentiation.threshold 2000

/-!
Verification development for the assignment generator/evaluator service
(`src/app/api/generate/route.ts` and `src/app/api/evaluate/route.ts`).

Texts are modelled as `List Char`.  JSON values are modelled by the mutual
inductive `Json`/`JArr`/`JObj` below; JSON numbers are restricted to integers
(the service's rubric scores and points are integers).  The percentage
computation `Math.round((t / m) * 100)` runs on IEEE binary64 doubles, and is
embedded exactly: `jsDiv` and `jsMul100` perform correctly rounded binary64
division and multiplication (round to nearest, ties to even, with subnormals
and overflow to infinity), carrying the double's exact rational value as a
fraction with a power-of-two denominator, and `jsRound` is ECMA-262
`Math.round` on that exact value (nearest integral value, ties toward
positive infinity).
-/

def lc (s : String) : List Char := s.data

def isWsChar (c : Char) : Bool := c = ' ' || c = '\n' || c = '\t' || c = '\r'

def isDigitChar (c : Char) : Bool := '0' ≤ c && c ≤ '9'

/-- Decimal digit character for `m < 10` (defaults to `'9'` above the range,
which the callers never exercise). -/
def digitChar : Nat → Char
  | 0 => '0' | 1 => '1' | 2 => '2' | 3 => '3' | 4 => '4'
  | 5 => '5' | 6 => '6' | 7 => '7' | 8 => '8' | _ => '9'

def digitVal (c : Char) : Nat := c.toNat - 48

/-- Decimal digits of `n`, most significant first, with explicit fuel
(structural so that the kernel can evaluate it; `fuel > n` is always enough). -/
def natCharsF : Nat → Nat → List Char
  | 0, _ => []
  | fuel + 1, n => if n < 10 then [digitChar n] else natCharsF fuel (n / 10) ++ [digitChar (n % 10)]

def natToChars (n : Nat) : List Char := natCharsF (n + 1) n

/-- Decimal rendering of an integer, as JavaScript renders integral numbers. -/
def intToChars (i : Int) : List Char :=
  if i < 0 then '-' :: natToChars i.natAbs else natToChars i.natAbs

def digitsToNat (ds : List Char) : Nat := ds.foldl (fun a c => 10 * a + digitVal c) 0

def hexDigit (m : Nat) : Char :=
  if m < 10 then digitChar m
  else if m = 10 then 'a' else if m = 11 then 'b' else if m = 12 then 'c'
  else if m = 13 then 'd' else if m = 14 then 'e' else 'f'

def isHexChar (c : Char) : Bool :=
  isDigitChar c || ('a' ≤ c && c ≤ 'f') || ('A' ≤ c && c ≤ 'F')

def hexVal (c : Char) : Nat :=
  if isDigitChar c then c.toNat - 48
  else if 'a' ≤ c && c ≤ 'f' then c.toNat - 87
  else c.toNat - 55

mutual
/-- JSON values (numbers restricted to integers, see the header comment). -/
inductive Json where
  | null
  | bool (b : Bool)
  | num (n : Int)
  | str (s : List Char)
  | arr (xs : JArr)
  | obj (kvs : JObj)
deriving DecidableEq, Repr

/-- A JSON array payload. -/
inductive JArr where
  | nil
  | cons (hd : Json) (tl : JArr)
deriving DecidableEq, Repr

/-- A JSON object payload: ordered key/value members. -/
inductive JObj where
  | nil
  | cons (k : List Char) (v : Json) (tl : JObj)
deriving DecidableEq, Repr
end

def JArr.length : JArr → Nat
  | .nil => 0
  | .cons _ tl => 1 + tl.length

/-- Escaping of one character inside a JSON string literal, as
`JSON.stringify` performs it. -/
def escChar (c : Char) : List Char :=
  if c = '"' then ['\\', '"']
  else if c = '\\' then ['\\', '\\']
  else if c = '\n' then ['\\', 'n']
  else if c = '\t' then ['\\', 't']
  else if c = '\r' then ['\\', 'r']
  else if c = '\x08' then ['\\', 'b']
  else if c = '\x0c' then ['\\', 'f']
  else if c.toNat < 32 then ['\\', 'u', '0', '0', hexDigit (c.toNat / 16), hexDigit (c.toNat % 16)]
  else [c]

def escString : List Char → List Char
  | [] => []
  | c :: tl => escChar c ++ escString tl

mutual
/-- Model of `JSON.stringify` (compact form, no extra whitespace). -/
def stringify : Json → List Char
  | .null => lc "null"
  | .bool true => lc "true"
  | .bool false => lc "false"
  | .num i => intToChars i
  | .str s => '"' :: escString s ++ ['"']
  | .arr xs => '[' :: stringifyElems xs ++ [']']
  | .obj kvs => '\x7b' :: stringifyMems kvs ++ ['\x7d']

/-- Comma-separated renderings of array elements. -/
def stringifyElems : JArr → List Char
  | .nil => []
  | .cons x .nil => stringify x
  | .cons x (.cons y tl) => stringify x ++ ',' :: stringifyElems (.cons y tl)

/-- Comma-separated renderings of object members. -/
def stringifyMems : JObj → List Char
  | .nil => []
  | .cons k v .nil => '"' :: escString k ++ '"' :: ':' :: stringify v
  | .cons k v (.cons k2 v2 tl) =>
      ('"' :: escString k ++ '"' :: ':' :: stringify v) ++ ',' :: stringifyMems (.cons k2 v2 tl)
end

mutual
/-- Fuel needed by the fuelled JSON parser to consume a value. -/
def jfuel : Json → Nat
  | .null | .bool _ | .num _ | .str _ => 0
  | .arr .nil => 1
  | .arr (.cons x tl) => jfuelA (.cons x tl)
  | .obj .nil => 1
  | .obj (.cons k v tl) => jfuelO (.cons k v tl)

/-- Fuel needed to parse the (non-empty) element list of an array. -/
def jfuelA : JArr → Nat
  | .nil => 1
  | .cons x tl => 1 + jfuel x + jfuelA tl

/-- Fuel needed to parse the (non-empty) member list of an object. -/
def jfuelO : JObj → Nat
  | .nil => 1
  | .cons _ v tl => 1 + jfuel v + jfuelO tl
end

example : stringify (.obj (.cons (lc "a") (.num 1) .nil)) = lc "\x7b\"a\":1\x7d" := by decide

example : stringify (.arr (.cons (.num (-2)) (.cons .null .nil))) = lc "[-2,null]" := by decide

/-! ## A model of `JSON.parse`

A fuelled recursive-descent parser over `List Char`.  It accepts exactly the
values our `Json` type can represent (integers only for numbers; escape
sequences as produced by `JSON.stringify`), requires the whole input to be a
single value surrounded by whitespace, and is deliberately executable so that
concrete texts can be evaluated by `decide`/`rfl`. -/

def skipWs (t : List Char) : List Char := t.dropWhile isWsChar

def unescChar (e : Char) : Option Char :=
  if e = '"' then some '"'
  else if e = '\\' then some '\\'
  else if e = '/' then some '/'
  else if e = 'b' then some '\x08'
  else if e = 'f' then some '\x0c'
  else if e = 'n' then some '\n'
  else if e = 'r' then some '\r'
  else if e = 't' then some '\t'
  else none

/-- Parse the body of a JSON string literal (the opening quote already
consumed), returning the decoded characters and the rest of the input. -/
def parseStrBody : List Char → Option (List Char × List Char)
  | [] => none
  | c :: rest =>
    if c = '"' then some ([], rest)
    else if c = '\\' then
      match rest with
      | [] => none
      | e :: rest2 =>
        if e = 'u' then
          match rest2 with
          | h1 :: h2 :: h3 :: h4 :: rest3 =>
            if isHexChar h1 && isHexChar h2 && isHexChar h3 && isHexChar h4 then
              match parseStrBody rest3 with
              | some (s, r) =>
                  some (Char.ofNat (((hexVal h1 * 16 + hexVal h2) * 16 + hexVal h3) * 16 + hexVal h4) :: s, r)
              | none => none
            else none
          | _ => none
        else
          match unescChar e with
          | some u =>
            match parseStrBody rest2 with
            | some (s, r) => some (u :: s, r)
            | none => none
          | none => none
    else
      match parseStrBody rest with
      | some (s, r) => some (c :: s, r)
      | none => none

/-- Parse a non-empty run of decimal digits. -/
def parseDigits (t : List Char) : Option (Nat × List Char) :=
  let ds := t.takeWhile isDigitChar
  if ds.isEmpty then none else some (digitsToNat ds, t.dropWhile isDigitChar)

mutual
/-- Parse one JSON value (leading whitespace allowed), with fuel. -/
def parseVal : Nat → List Char → Option (Json × List Char)
  | 0, _ => none
  | fuel + 1, t =>
    match skipWs t with
    | [] => none
    | c :: r =>
      if c = 'n' then
        if r.take 3 = lc "ull" then some (.null, r.drop 3) else none
      else if c = 't' then
        if r.take 3 = lc "rue" then some (.bool true, r.drop 3) else none
      else if c = 'f' then
        if r.take 4 = lc "alse" then some (.bool false, r.drop 4) else none
      else if c = '"' then
        match parseStrBody r with
        | some (s, rest) => some (.str s, rest)
        | none => none
      else if c = '[' then
        let r2 := skipWs r
        if r2.head? = some ']' then some (.arr .nil, r2.tail)
        else
          match parseElemsNE fuel r2 with
          | some (xs, rest) => some (.arr xs, rest)
          | none => none
      else if c = '\x7b' then
        let r2 := skipWs r
        if r2.head? = some '\x7d' then some (.obj .nil, r2.tail)
        else
          match parseMemsNE fuel r2 with
          | some (kvs, rest) => some (.obj kvs, rest)
          | none => none
      else if c = '-' then
        match parseDigits r with
        | some (n, rest) => some (.num (-(n : Int)), rest)
        | none => none
      else if isDigitChar c then
        match parseDigits (c :: r) with
        | some (n, rest) => some (.num (n : Int), rest)
        | none => none
      else none

/-- Parse a non-empty comma-separated element list followed by `]`. -/
def parseElemsNE : Nat → List Char → Option (JArr × List Char)
  | 0, _ => none
  | fuel + 1, t =>
    match parseVal fuel t with
    | none => none
    | some (v, r) =>
      let r2 := skipWs r
      if r2.head? = some ']' then some (.cons v .nil, r2.tail)
      else if r2.head? = some ',' then
        match parseElemsNE fuel (skipWs r2.tail) with
        | some (tl, rest2) => some (.cons v tl, rest2)
        | none => none
      else none

/-- Parse a non-empty member list (starting at a key string) followed by
a closing brace. -/
def parseMemsNE : Nat → List Char → Option (JObj × List Char)
  | 0, _ => none
  | fuel + 1, t =>
    if t.head? = some '"' then
      match parseStrBody t.tail with
      | none => none
      | some (k, r2) =>
        let r3 := skipWs r2
        if r3.head? = some ':' then
          match parseVal fuel r3.tail with
          | none => none
          | some (v, r4) =>
            let r5 := skipWs r4
            if r5.head? = some '\x7d' then some (.cons k v .nil, r5.tail)
            else if r5.head? = some ',' then
              match parseMemsNE fuel (skipWs r5.tail) with
              | some (tl, rest2) => some (.cons k v tl, rest2)
              | none => none
            else none
        else none
    else none
end

/-- Model of `JSON.parse`: the whole text must be one value surrounded by
whitespace. -/
def jsonParse (t : List Char) : Option Json :=
  match parseVal (t.length + 1) t with
  | some (v, rest) => if (skipWs rest).isEmpty then some v else none
  | none => none

/-! ## The extraction pipeline of the two routes

Both routes run the identical recovery code on the model's reply
(`generate/route.ts` lines 362-385, `evaluate/route.ts` lines 312-333):
trim, strip a leading/trailing code fence, try `JSON.parse`, and on failure
parse the first-`{`-to-last-`}` span matched by the regex
`/\{[\s\S]*\}/`; any remaining failure is surfaced as an error. -/

def dropTrailWs (t : List Char) : List Char := (t.reverse.dropWhile isWsChar).reverse

def trimChars (t : List Char) : List Char := dropTrailWs (t.dropWhile isWsChar)

/-- Strip `/\n?```$/`: performed by both fence branches. -/
def stripTrailFence (t : List Char) : List Char :=
  if lc "```" <:+ t then
    if lc "\n" <:+ t.take (t.length - 3) then
      (t.take (t.length - 3)).take ((t.take (t.length - 3)).length - 1)
    else t.take (t.length - 3)
  else t

/-- Strip a leading fence marker of `n` characters plus an optional newline. -/
def stripLeadFence (n : Nat) (t : List Char) : List Char :=
  let t2 := t.drop n
  if t2.head? = some '\n' then t2.tail else t2

/-- The trim-and-unfence preprocessing both routes apply before parsing. -/
def preprocess (raw : List Char) : List Char :=
  let t := trimChars raw
  if lc "```json" <+: t then stripTrailFence (stripLeadFence 7 t)
  else if lc "```" <+: t then stripTrailFence (stripLeadFence 3 t)
  else t

/-- The span matched by the fallback regex `/\{[\s\S]*\}/`: from the first
`{` through the last `}` after it, if any. -/
def braceSpan (t : List Char) : Option (List Char) :=
  let rest := t.dropWhile (fun c => !(c == '\x7b'))
  if rest.isEmpty then none
  else
    let k := (rest.reverse.takeWhile (fun c => !(c == '\x7d'))).length
    if k = rest.length then none else some (rest.take (rest.length - k))

/-- The whole best-effort extraction applied to a model reply; `none` models
the `MalformedResponseError` path (either no span, or an unparseable span). -/
def extractJson (raw : List Char) : Option Json :=
  match jsonParse (preprocess raw) with
  | some v => some v
  | none =>
    match braceSpan (preprocess raw) with
    | some sub => jsonParse sub
    | none => none

example : jsonParse (lc " \x7b\"a\": [1, -2, \"x\"]\x7d ") =
    some (.obj (.cons (lc "a")
      (.arr (.cons (.num 1) (.cons (.num (-2)) (.cons (.str (lc "x")) .nil)))) .nil)) := by decide

example : extractJson (lc "```json\n\x7b\"a\":true\x7d\n```") =
    some (.obj (.cons (lc "a") (.bool true) .nil)) := by decide

example : extractJson (lc "some prose \x7b\"a\":null\x7d more prose") =
    some (.obj (.cons (lc "a") .null .nil)) := by decide

example : extractJson (lc "no json here at all") = none := by decide

/-! ## A model of the JavaScript value operations the routes use

Request bodies of the two routes and the values recovered from model
replies are `Json` trees; a possibly-`undefined` JavaScript value is an
`Option Json` with `none` for `undefined`.  The model keeps the
restriction stated at the top of the file: JavaScript numbers are
embedded as integers (and exact rationals after a division), so string
numerals beyond optional-sign decimal integers, and binary-double
rounding of quotients, are outside the embedded value space. -/

def isTruthy : Json → Bool
  | .null => false
  | .bool b => b
  | .num n => !(n == 0)
  | .str s => !s.isEmpty
  | .arr _ => true
  | .obj _ => true

def truthyOpt : Option Json → Bool
  | none => false
  | some v => isTruthy v

/-- Own-property lookup on an object; with duplicate keys the last wins,
as in `JSON.parse`. -/
def objGet : JObj → List Char → Option Json
  | .nil, _ => none
  | .cons k v tl, key =>
    match objGet tl key with
    | some r => some r
    | none => if k = key then some v else none

/-- Property access `v.key`: it throws a `TypeError` on `null` (modeled as
`.error ()`), looks a key up on an object, and yields `undefined` on any
other value (the fields the routes read do not exist on primitives or
arrays). -/
def jsField (v : Json) (key : List Char) : Except Unit (Option Json) :=
  match v with
  | .null => .error ()
  | .obj kvs => .ok (objGet kvs key)
  | _ => .ok none

/-- Property access on a possibly-`undefined` value, which also throws. -/
def jsFieldOpt (v : Option Json) (key : List Char) : Except Unit (Option Json) :=
  match v with
  | none => .error ()
  | some w => jsField w key

/-- Array element lookup by a property key that is the canonical decimal
numeral of the index (`a["2"]`); other keys (`length` aside, which the
routes never index) yield `undefined`. -/
def arrGetGo : JArr → Nat → List Char → Option Json
  | .nil, _, _ => none
  | .cons x tl, i, key =>
    if natToChars i = key then some x else arrGetGo tl (i + 1) key

/-- String indexing `s["2"]` yields the one-character string at the index. -/
def strGetGo : List Char → Nat → List Char → Option Json
  | [], _, _ => none
  | c :: tl, i, key =>
    if natToChars i = key then some (.str [c]) else strGetGo tl (i + 1) key

/-- Computed member access `v[key]`: throws on `null`, looks up objects,
arrays and strings, and yields `undefined` on the remaining primitives. -/
def jsIdx (v : Json) (key : List Char) : Except Unit (Option Json) :=
  match v with
  | .null => .error ()
  | .obj kvs => .ok (objGet kvs key)
  | .arr xs => .ok (arrGetGo xs 0 key)
  | .str s => .ok (strGetGo s 0 key)
  | _ => .ok none

def jsIdxOpt (v : Option Json) (key : List Char) : Except Unit (Option Json) :=
  match v with
  | none => .error ()
  | some w => jsIdx w key

/-! String conversion for template literals (`String(v)`).  Arrays stringify by
joining their elements with `","`, a `null` element joining as the empty
string; plain objects stringify as `"[object Object]"`. -/

mutual

def jsToString : Json → List Char
  | .null => lc "null"
  | .bool true => lc "true"
  | .bool false => lc "false"
  | .num n => intToChars n
  | .str s => s
  | .arr xs => jsToStringElems xs
  | .obj _ => lc "[object Object]"

def jsToStringElems : JArr → List Char
  | .nil => []
  | .cons x .nil => if x = .null then [] else jsToString x
  | .cons x (.cons y tl) =>
    (if x = .null then [] else jsToString x) ++ ',' :: jsToStringElems (.cons y tl)

end

/-- Template-literal display of a possibly-`undefined` value. -/
def jsDisplayOpt : Option Json → List Char
  | none => lc "undefined"
  | some v => jsToString v

/-- Method call `v.toString()`: a method call, so it throws on `undefined` and `null`. -/
def jsToStringMethod : Option Json → Except Unit (List Char)
  | none => .error ()
  | some .null => .error ()
  | some v => .ok (jsToString v)

/-- Strict equality `===` on possibly-`undefined` parsed-JSON values.
Arrays and objects compare by reference; the routes only ever compare
values recovered from two distinct parses, which can never alias, so the
object/array cases are `false`. -/
def strictEq : Option Json → Option Json → Bool
  | none, none => true
  | some a, some b =>
    match a, b with
    | .null, .null => true
    | .bool x, .bool y => x == y
    | .num x, .num y => x == y
    | .str x, .str y => x == y
    | _, _ => false
  | _, _ => false

/-- A JavaScript primitive as it enters `+` or `ToNumber`. -/
inductive JsPrim where
  | num (n : Int)
  | nan
  | str (cs : List Char)
  | boolean (b : Bool)
  | nul
  | undef
deriving DecidableEq, Repr

/-- The `ToPrimitive` conversion with the default hint: arrays and objects convert via
`toString`, everything else is already primitive. -/
def toPrimitive : Json → JsPrim
  | .null => .nul
  | .bool b => .boolean b
  | .num n => .num n
  | .str s => .str s
  | .arr xs => .str (jsToStringElems xs)
  | .obj _ => .str (lc "[object Object]")

def toPrimitiveOpt : Option Json → JsPrim
  | none => .undef
  | some v => toPrimitive v

/-- The `ToString` conversion of a primitive. -/
def primToStr : JsPrim → List Char
  | .num n => intToChars n
  | .nan => lc "NaN"
  | .str s => s
  | .boolean true => lc "true"
  | .boolean false => lc "false"
  | .nul => lc "null"
  | .undef => lc "undefined"

/-- The result of a numeric coercion or of `+` in the model: an integer,
`NaN`, or a string. -/
inductive SVal where
  | i (n : Int)
  | nan
  | s (cs : List Char)
deriving DecidableEq, Repr

/-- The `ToNumber` conversion of a string, integer-restricted: surrounding whitespace is
dropped, the empty string is `0`, an optional-sign decimal-digit run is
its value, and anything else (decimals, exponents, hex, `Infinity`) is
outside the embedded value space and maps to `NaN`. -/
def strToNum (s : List Char) : SVal :=
  match trimChars s with
  | [] => .i 0
  | '-' :: ds => if !ds.isEmpty && ds.all isDigitChar then .i (-(digitsToNat ds : Int)) else .nan
  | '+' :: ds => if !ds.isEmpty && ds.all isDigitChar then .i (digitsToNat ds) else .nan
  | ds => if ds.all isDigitChar then .i (digitsToNat ds) else .nan

/-- The `ToNumber` conversion of a primitive. -/
def primToNum : JsPrim → SVal
  | .num n => .i n
  | .nan => .nan
  | .str s => strToNum s
  | .boolean true => .i 1
  | .boolean false => .i 0
  | .nul => .i 0
  | .undef => .nan

def svalStr : SVal → List Char
  | .i n => intToChars n
  | .nan => lc "NaN"
  | .s cs => cs

/-- The `ToNumber` conversion of a value the model already reduced: numbers pass
through, strings coerce. -/
def svalToNum : SVal → SVal
  | .s cs => strToNum cs
  | x => x

/-- One step of `+`: if either side is a string the other is converted to
a string and concatenated, otherwise both convert to numbers and add. -/
def jsAddStep (sum : SVal) (p : JsPrim) : SVal :=
  match sum, p with
  | .s cs, _ => .s (cs ++ primToStr p)
  | _, .str s2 => .s (svalStr sum ++ s2)
  | _, _ =>
    match sum, primToNum p with
    | .i a, .i b => .i (a + b)
    | _, _ => .nan

/-- The `ToNumber` conversion of a possibly-`undefined` value (`undefined` is `NaN`). -/
def toNumberOpt (v : Option Json) : SVal :=
  primToNum (toPrimitiveOpt v)

/-- A JavaScript number after a division: finite, `NaN`, or a signed
infinity.  A finite value is the exact rational value of an IEEE binary64
double, a fraction `num / den` whose denominator is a power of two (kept
unreduced as mantissa over scale; the sign of a zero is dropped, which the
routes never observe). -/
inductive JsNum where
  | fin (num : Int) (den : Nat)
  | nan
  | inf
  | ninf
deriving DecidableEq, Repr

/-- Number of binary digits of a natural number, by fuel (`n + 1` halving
steps always suffice). -/
def bitLenF : Nat → Nat → Nat
  | 0, _ => 0
  | f + 1, n => if n = 0 then 0 else bitLenF f (n / 2) + 1

def bitLen (n : Nat) : Nat :=
  bitLenF (n + 1) n

/-- Nearest integer to `a / b` with ties to even, for `b ≠ 0`. -/
def divNearestEven (a b : Nat) : Nat :=
  let q := a / b
  let r := a % b
  if 2 * r < b then q
  else if b < 2 * r then q + 1
  else if q % 2 = 0 then q else q + 1

/-- Whether `b * 2 ^ e ≤ a`, for a signed exponent `e`. -/
def geShift (a b : Nat) (e : Int) : Bool :=
  if 0 ≤ e then decide (b * 2 ^ e.toNat ≤ a) else decide (b ≤ a * 2 ^ (-e).toNat)

/-- Nearest integer to `(a * 2 ^ sh) / b` with ties to even, for a signed
shift `sh`. -/
def scaledDiv (a b : Nat) (sh : Int) : Nat :=
  if 0 ≤ sh then divNearestEven (a * 2 ^ sh.toNat) b
  else divNearestEven a (b * 2 ^ (-sh).toNat)

/-- Round the positive rational `a / b` (with `a, b ≥ 1`) to the nearest
IEEE binary64 value (round to nearest, ties to even), as a pair `(M, e)`
of exact value `M * 2 ^ e`.  The leading-bit position of `a / b` is
`bitLen a - bitLen b`, corrected down by one when `a / b` falls below that
power of two; a normal result keeps 53 significant bits, a subnormal one
(below `2 ^ (-1022)`) is a multiple of the fixed quantum `2 ^ (-1074)`,
and a zero or overflowed value falls out of the same formulas (overflow is
detected by the caller from the returned pair). -/
def roundPosME (a b : Nat) : Nat × Int :=
  let e0 : Int := (bitLen a : Int) - (bitLen b : Int)
  let e : Int := if geShift a b e0 then e0 else e0 - 1
  if e < -1022 then (scaledDiv a b 1074, -1074)
  else (scaledDiv a b (52 - e), e - 52)

/-- Whether the rounded value `M * 2 ^ e` reaches the binary64 overflow
threshold `2 ^ 1024`. -/
def dOverflow (M : Nat) (e : Int) : Bool :=
  if 0 ≤ e then decide (2 ^ 1024 ≤ M * 2 ^ e.toNat)
  else decide (2 ^ (1024 + (-e).toNat) ≤ M)

/-- The binary64 double nearest to the positive rational `a / b`: overflow
gives `Infinity`, otherwise the exact rounded value as a fraction with a
power-of-two denominator. -/
def dpackPos (a b : Nat) : JsNum :=
  let me := roundPosME a b
  if dOverflow me.1 me.2 then .inf
  else if 0 ≤ me.2 then .fin ((me.1 * 2 ^ me.2.toNat : Nat) : Int) 1
  else .fin (me.1 : Int) (2 ^ (-me.2).toNat)

def dnegate : JsNum → JsNum
  | .fin n d => .fin (-n) d
  | .inf => .ninf
  | .ninf => .inf
  | .nan => .nan

/-- The binary64 quotient `x / y` of two integers with `y ≠ 0` (rounding
to nearest is symmetric under negation, so the magnitude is rounded and
the sign reattached; a zero result loses its sign). -/
def ddiv (x y : Int) : JsNum :=
  if x = 0 then .fin 0 1
  else
    let mag := dpackPos x.natAbs y.natAbs
    if 0 < x * y then mag else dnegate mag

/-- The binary64 product of the double `n / d` with the exactly
representable `100`: the exact product rounded back to 53 bits.  The
guard on `d = 0` is unreachable (every constructed denominator is a
positive power of two) and is only for totality. -/
def dmul100 (n : Int) (d : Nat) : JsNum :=
  if n = 0 ∨ d = 0 then .fin 0 1
  else
    let mag := dpackPos (100 * n.natAbs) d
    if 0 < n then mag else dnegate mag

/-- Division of two coerced numbers in binary64: division by zero gives a
signed infinity (`0 / 0` gives `NaN`), any other quotient is the correctly
rounded double. -/
def jsDiv (a b : SVal) : JsNum :=
  match a, b with
  | .i x, .i y =>
    if y = 0 then
      if x = 0 then .nan else if 0 < x then .inf else .ninf
    else ddiv x y
  | _, _ => .nan

/-- Multiplication of a double by 100, correctly rounded. -/
def jsMul100 : JsNum → JsNum
  | .fin n d => dmul100 n d
  | x => x

/-- The model of `Math.round`: per ECMA-262 it returns the integral value
nearest to the exact value of its argument, with a tie going toward
positive infinity (it is not computed as a floating add of `0.5`), so
`round(n / d) = ⌊(2 * n + d) / (2 * d)⌋`; an argument at or above `2 ^ 52`
in magnitude is already integral and is returned unchanged, which the
same formula yields. -/
def jsRound : JsNum → JsNum
  | .fin n d => .fin (Int.fdiv (2 * n + d) (2 * d)) 1
  | x => x

/-- The composite `Math.round(x * 100)`, the percentage computation of the evaluate route. -/
def percRound (x : JsNum) : JsNum :=
  jsRound (jsMul100 x)

/-- Display of a number; after `Math.round` the finite case always has
denominator 1 (non-integer values cannot reach a template literal in the
routes, and are displayed as a fraction only for totality). -/
def jsNumChars : JsNum → List Char
  | .fin n d => if d = 1 then intToChars n else intToChars n ++ '/' :: natToChars d
  | .nan => lc "NaN"
  | .inf => lc "Infinity"
  | .ninf => lc "-Infinity"

/-- An `Array.prototype.join`-style interleaving used for the
template-literal `.join(sep)` calls. -/
def joinSep (sep : List Char) : List (List Char) → List Char
  | [] => []
  | [x] => x
  | x :: y :: tl => x ++ sep ++ joinSep sep (y :: tl)

/-- The `Object.entries` of an object: own enumerable string-keyed pairs in
order. -/
def objEntries : JObj → List (List Char × Json)
  | .nil => []
  | .cons k v tl => (k, v) :: objEntries tl

def arrEntriesGo : JArr → Nat → List (List Char × Json)
  | .nil, _ => []
  | .cons x tl, i => (natToChars i, x) :: arrEntriesGo tl (i + 1)

def strEntriesGo : List Char → Nat → List (List Char × Json)
  | [], _ => []
  | c :: tl, i => (natToChars i, .str [c]) :: strEntriesGo tl (i + 1)

/-- The full `Object.entries(v)`: it throws on `null` and `undefined`, enumerates
objects, arrays and strings by index, and is empty on the remaining
primitives. -/
def jsEntriesOpt : Option Json → Except Unit (List (List Char × Json))
  | none => .error ()
  | some .null => .error ()
  | some (.obj kvs) => .ok (objEntries kvs)
  | some (.arr xs) => .ok (arrEntriesGo xs 0)
  | some (.str s) => .ok (strEntriesGo s 0)
  | some _ => .ok []

/-- Word count of the essay branch:
`text.trim().split(/\s+/).filter(Boolean).length`, i.e. the number of
maximal whitespace-free runs. -/
def countWordsGo : List Char → Bool → Nat
  | [], _ => 0
  | c :: tl, inw =>
    if isWsChar c then countWordsGo tl false
    else (if inw then 0 else 1) + countWordsGo tl true

def countWords (s : List Char) : Nat := countWordsGo s false

/-! ## The evaluate route (`src/app/api/evaluate/route.ts`)

The prompt builders mirror the five template literals; every property
read, index, method call and `.map`/`.reduce` over a non-array goes
through `Except Unit`, modeling the thrown `TypeError`s that the route's
`catch` turns into a 500 response. -/

/-- One line of the shared `RUBRIC:` block
(`assignment.rubric.categories.map(...)`). -/
def catLine (cat : Json) : Except Unit (List Char) :=
  match jsField cat (lc "name") with
  | .error e => .error e
  | .ok name =>
  match jsField cat (lc "points") with
  | .error e => .error e
  | .ok points =>
  match jsField cat (lc "levels") with
  | .error e => .error e
  | .ok levels =>
  match jsFieldOpt levels (lc "exemplary") with
  | .error e => .error e
  | .ok exv =>
  match jsFieldOpt exv (lc "description") with
  | .error e => .error e
  | .ok exd =>
  match jsFieldOpt levels (lc "proficient") with
  | .error e => .error e
  | .ok prv =>
  match jsFieldOpt prv (lc "description") with
  | .error e => .error e
  | .ok prd =>
  match jsFieldOpt levels (lc "developing") with
  | .error e => .error e
  | .ok dvv =>
  match jsFieldOpt dvv (lc "description") with
  | .error e => .error e
  | .ok dvd =>
  match jsFieldOpt levels (lc "beginning") with
  | .error e => .error e
  | .ok bgv =>
  match jsFieldOpt bgv (lc "description") with
  | .error e => .error e
  | .ok bgd =>
    .ok (lc "\n- " ++ jsDisplayOpt name ++ lc " (" ++ jsDisplayOpt points ++
      lc " points):\n  Exemplary: " ++ jsDisplayOpt exd ++
      lc "\n  Proficient: " ++ jsDisplayOpt prd ++
      lc "\n  Developing: " ++ jsDisplayOpt dvd ++
      lc "\n  Beginning: " ++ jsDisplayOpt bgd ++ lc "\n")

def catLines : JArr → Except Unit (List (List Char))
  | .nil => .ok []
  | .cons c tl =>
    match catLine c with
    | .error e => .error e
    | .ok l =>
      match catLines tl with
      | .error e => .error e
      | .ok ls => .ok (l :: ls)

/-- The block `assignment.rubric.categories.map(...).join("\n")`: it throws when
`rubric` is absent or `categories` is not an array. -/
def rubricBlock (assignment : Json) : Except Unit (List Char) :=
  match jsField assignment (lc "rubric") with
  | .error e => .error e
  | .ok rubric =>
  match jsFieldOpt rubric (lc "categories") with
  | .error e => .error e
  | .ok cats =>
  match cats with
  | some (.arr xs) =>
    match catLines xs with
    | .error e => .error e
    | .ok ls => .ok (joinSep (lc "\n") ls)
  | _ => .error ()

/-- One element of `questionDetails` in the multiple-choice branch. -/
structure McDetail where
  question : Option Json
  studentAnswer : Option Json
  correctAnswer : Option Json
  isCorrect : Bool
  points : Option Json
  earnedPoints : Option Json
deriving DecidableEq, Repr

/-- The `questions.map` of the multiple-choice branch, accumulating
`correctCount` and `totalPoints` (`totalPoints += q.points`). -/
def mcProcessFrom (answers answerKey : Option Json) :
    Int → SVal → JArr → Except Unit (Int × SVal × List McDetail)
  | cc, tp, .nil => .ok (cc, tp, [])
  | cc, tp, .cons q tl =>
    match jsField q (lc "number") with
    | .error e => .error e
    | .ok num =>
    match jsIdxOpt answers (jsDisplayOpt num) with
    | .error e => .error e
    | .ok sa =>
    match jsToStringMethod num with
    | .error e => .error e
    | .ok numStr =>
    match jsIdxOpt answerKey numStr with
    | .error e => .error e
    | .ok ca =>
    match jsField q (lc "points") with
    | .error e => .error e
    | .ok pts =>
    match jsField q (lc "question") with
    | .error e => .error e
    | .ok qq =>
      match mcProcessFrom answers answerKey
          (if strictEq sa ca then cc + 1 else cc)
          (if strictEq sa ca then jsAddStep tp (toPrimitiveOpt pts) else tp) tl with
      | .error e => .error e
      | .ok (ccf, tpf, ds) =>
        .ok (ccf, tpf,
          ⟨qq, sa, ca, strictEq sa ca, pts,
            if strictEq sa ca then pts else some (.num 0)⟩ :: ds)

/-- The fold `questions.reduce((sum, q) => sum + q.points, 0)`. -/
def sumPointsFrom : SVal → JArr → Except Unit SVal
  | acc, .nil => .ok acc
  | acc, .cons q tl =>
    match jsField q (lc "points") with
    | .error e => .error e
    | .ok pts => sumPointsFrom (jsAddStep acc (toPrimitiveOpt pts)) tl

/-- The per-question line of `QUESTION-BY-QUESTION BREAKDOWN`. -/
def mcDetailLine (i : Nat) (d : McDetail) : List Char :=
  lc "\n" ++ natToChars (i + 1) ++ lc ". " ++ jsDisplayOpt d.question ++
  lc "\n   Student Answer: " ++ jsDisplayOpt d.studentAnswer ++
  lc "\n   Correct Answer: " ++ jsDisplayOpt d.correctAnswer ++
  lc "\n   Result: " ++ (if d.isCorrect then lc "✓ Correct" else lc "✗ Incorrect") ++
  lc "\n   Points: " ++ jsDisplayOpt d.earnedPoints ++ lc " / " ++ jsDisplayOpt d.points ++
  lc "\n"

def mcDetailLines : Nat → List McDetail → List (List Char)
  | _, [] => []
  | i, d :: tl => mcDetailLine i d :: mcDetailLines (i + 1) tl

/-- The multiple-choice evaluation prompt.  The two occurrences of the
points `reduce` in the template compute the same value and are evaluated
once here. -/
def mcPrompt (assignment submission : Json) : Except Unit (List Char) :=
  match jsField assignment (lc "questions") with
  | .error e => .error e
  | .ok questionsV =>
  match jsField submission (lc "answers") with
  | .error e => .error e
  | .ok answers =>
  match jsField assignment (lc "answerKey") with
  | .error e => .error e
  | .ok answerKey =>
  match questionsV with
  | some (.arr qs) =>
    match mcProcessFrom answers answerKey 0 (.i 0) qs with
    | .error e => .error e
    | .ok (cc, tp, details) =>
    match jsField assignment (lc "title") with
    | .error e => .error e
    | .ok title =>
    match sumPointsFrom (.i 0) qs with
    | .error e => .error e
    | .ok totalPts =>
    match rubricBlock assignment with
    | .error e => .error e
    | .ok rub =>
      .ok (lc "You are an expert educator evaluating a multiple choice test submission.\n\nASSIGNMENT: " ++
        jsDisplayOpt title ++
        lc "\n\nSTUDENT PERFORMANCE:\n- Correct Answers: " ++ intToChars cc ++
        lc " out of " ++ natToChars (JArr.length qs) ++
        lc "\n- Points Earned: " ++ svalStr tp ++
        lc " out of " ++ svalStr totalPts ++
        lc "\n- Percentage: " ++
        jsNumChars (percRound (jsDiv (svalToNum tp) (svalToNum totalPts))) ++
        lc "%\n\nQUESTION-BY-QUESTION BREAKDOWN:\n" ++
        joinSep (lc "\n") (mcDetailLines 0 details) ++
        lc "\n\nRUBRIC:\n" ++ rub ++
        lc "\n\nPlease provide:\n1. Overall feedback (2-3 sentences summarizing performance)\n2. Detailed feedback analyzing strengths and areas for improvement\n3. Rubric-based assessment for each category with scores and feedback\n\nFormat your response as JSON:\n\x7b\n  \"overallFeedback\": \"Overall feedback text...\",\n  \"detailedFeedback\": \"Detailed analysis...\",\n  \"rubricAssessment\": [\n    \x7b\n      \"category\": \"Category Name\",\n      \"score\": 25,\n      \"maxScore\": 25,\n      \"feedback\": \"Feedback for this category...\"\n    \x7d\n  ]\n\x7d")
  | _ => .error ()

/-- The map `requirements.map((req, i) => ...)` of the essay branch. -/
def numberLines : Nat → JArr → List (List Char)
  | _, .nil => []
  | i, .cons r tl => (natToChars (i + 1) ++ lc ". " ++ jsToString r) :: numberLines (i + 1) tl

/-- The essay evaluation prompt; `submission.text.trim()` is a method
call, so a non-string `text` throws. -/
def essayPrompt (assignment submission : Json) : Except Unit (List Char) :=
  match jsField submission (lc "text") with
  | .error e => .error e
  | .ok textV =>
  match textV with
  | some (.str s) =>
    match jsField assignment (lc "title") with
    | .error e => .error e
    | .ok title =>
    match jsField assignment (lc "prompt") with
    | .error e => .error e
    | .ok promptV =>
    match jsField assignment (lc "requirements") with
    | .error e => .error e
    | .ok reqsV =>
    match reqsV with
    | some (.arr reqs) =>
      match rubricBlock assignment with
      | .error e => .error e
      | .ok rub =>
        .ok (lc "You are an expert educator evaluating an essay submission.\n\nASSIGNMENT: " ++
          jsDisplayOpt title ++ lc "\nESSAY PROMPT: " ++ jsDisplayOpt promptV ++
          lc "\n\nSTUDENT ESSAY:\n" ++ s ++
          lc "\n\nWORD COUNT: " ++ natToChars (countWords s) ++
          lc " words\n\nREQUIREMENTS:\n" ++ joinSep (lc "\n") (numberLines 0 reqs) ++
          lc "\n\nRUBRIC:\n" ++ rub ++
          lc "\n\nEvaluate the essay based on the rubric. Consider:\n- How well the essay addresses the prompt\n- Quality of argumentation and analysis\n- Use of evidence and examples\n- Organization and structure\n- Writing quality (clarity, grammar, style)\n- Adherence to requirements\n\nProvide:\n1. Overall feedback (3-4 sentences)\n2. Detailed feedback with specific examples from the essay\n3. Rubric-based assessment with scores for each category\n\nFormat your response as JSON:\n\x7b\n  \"overallFeedback\": \"Overall feedback text...\",\n  \"detailedFeedback\": \"Detailed analysis with specific examples...\",\n  \"rubricAssessment\": [\n    \x7b\n      \"category\": \"Category Name\",\n      \"score\": 20,\n      \"maxScore\": 25,\n      \"feedback\": \"Feedback for this category with specific examples...\"\n    \x7d\n  ]\n\x7d")
    | _ => .error ()
  | _ => .error ()

/-- One `STUDENT ANSWERS` entry of the test branch
(`answer = submission.answers[q.number] || "No answer provided"`). -/
def testQLine (answers : Option Json) (q : Json) : Except Unit (List Char) :=
  match jsField q (lc "number") with
  | .error e => .error e
  | .ok num =>
  match jsIdxOpt answers (jsDisplayOpt num) with
  | .error e => .error e
  | .ok ansV =>
  match jsField q (lc "type") with
  | .error e => .error e
  | .ok ty =>
  match jsField q (lc "question") with
  | .error e => .error e
  | .ok qq =>
  match jsField q (lc "points") with
  | .error e => .error e
  | .ok pts =>
    .ok (jsDisplayOpt num ++ lc ". [" ++ jsDisplayOpt ty ++ lc "] " ++ jsDisplayOpt qq ++
      lc "\n   Student Answer: " ++
      (match ansV with
       | some v => if isTruthy v then jsToString v else lc "No answer provided"
       | none => lc "No answer provided") ++
      lc "\n   Points: " ++ jsDisplayOpt pts)

def testQLines (answers : Option Json) : JArr → Except Unit (List (List Char))
  | .nil => .ok []
  | .cons q tl =>
    match testQLine answers q with
    | .error e => .error e
    | .ok l =>
      match testQLines answers tl with
      | .error e => .error e
      | .ok ls => .ok (l :: ls)

/-- The map `Object.entries(assignment.answerKey).map(([num, ans]) => ...)`. -/
def keyLines : List (List Char × Json) → List (List Char)
  | [] => []
  | (k, v) :: tl => (k ++ lc ". " ++ jsToString v) :: keyLines tl

/-- The mixed-test evaluation prompt: it lists the student's answers and
the answer key but computes no score. -/
def testPrompt (assignment submission : Json) : Except Unit (List Char) :=
  match jsField assignment (lc "title") with
  | .error e => .error e
  | .ok title =>
  match jsField assignment (lc "questions") with
  | .error e => .error e
  | .ok questionsV =>
  match questionsV with
  | some (.arr qs) =>
    match jsField submission (lc "answers") with
    | .error e => .error e
    | .ok answers =>
    match testQLines answers qs with
    | .error e => .error e
    | .ok qlines =>
    match jsField assignment (lc "answerKey") with
    | .error e => .error e
    | .ok akV =>
    match jsEntriesOpt akV with
    | .error e => .error e
    | .ok entries =>
    match rubricBlock assignment with
    | .error e => .error e
    | .ok rub =>
      .ok (lc "You are an expert educator evaluating a mixed test submission.\n\nASSIGNMENT: " ++
        jsDisplayOpt title ++
        lc "\n\nSTUDENT ANSWERS:\n" ++ joinSep (lc "\n\n") qlines ++
        lc "\n\nANSWER KEY:\n" ++ joinSep (lc "\n") (keyLines entries) ++
        lc "\n\nRUBRIC:\n" ++ rub ++
        lc "\n\nEvaluate the submission and provide:\n1. Overall feedback\n2. Detailed feedback for each question type\n3. Rubric-based assessment\n\nFormat your response as JSON:\n\x7b\n  \"overallFeedback\": \"Overall feedback text...\",\n  \"detailedFeedback\": \"Detailed analysis...\",\n  \"rubricAssessment\": [\n    \x7b\n      \"category\": \"Category Name\",\n      \"score\": 20,\n      \"maxScore\": 25,\n      \"feedback\": \"Feedback for this category...\"\n    \x7d\n  ]\n\x7d")
  | _ => .error ()

/-- The map `tasks.map((task, i) => ...)` of the case-study branch
(`response = submission.responses[i + 1] || "No response provided"`). -/
def taskLines (responses : Option Json) : Nat → JArr → Except Unit (List (List Char))
  | _, .nil => .ok []
  | i, .cons t tl =>
    match jsIdxOpt responses (natToChars (i + 1)) with
    | .error e => .error e
    | .ok respV =>
      match taskLines responses (i + 1) tl with
      | .error e => .error e
      | .ok ls =>
        .ok ((lc "Task " ++ natToChars (i + 1) ++ lc ": " ++ jsToString t ++
          lc "\nResponse: " ++
          (match respV with
           | some v => if isTruthy v then jsToString v else lc "No response provided"
           | none => lc "No response provided")) :: ls)

/-- The case-study evaluation prompt. -/
def caseStudyPrompt (assignment submission : Json) : Except Unit (List Char) :=
  match jsField assignment (lc "title") with
  | .error e => .error e
  | .ok title =>
  match jsField assignment (lc "scenario") with
  | .error e => .error e
  | .ok scen =>
  match jsField assignment (lc "tasks") with
  | .error e => .error e
  | .ok tasksV =>
  match tasksV with
  | some (.arr tasks) =>
    match jsField submission (lc "responses") with
    | .error e => .error e
    | .ok responses =>
    match taskLines responses 0 tasks with
    | .error e => .error e
    | .ok rlines =>
    match rubricBlock assignment with
    | .error e => .error e
    | .ok rub =>
      .ok (lc "You are an expert educator evaluating a case study submission.\n\nASSIGNMENT: " ++
        jsDisplayOpt title ++ lc "\nCASE STUDY SCENARIO: " ++ jsDisplayOpt scen ++
        lc "\n\nSTUDENT RESPONSES:\n" ++ joinSep (lc "\n\n") rlines ++
        lc "\n\nRUBRIC:\n" ++ rub ++
        lc "\n\nEvaluate the responses based on:\n- Depth of analysis\n- Application of concepts\n- Critical thinking\n- Quality of reasoning\n- Completeness of responses\n\nProvide:\n1. Overall feedback\n2. Detailed feedback for each task\n3. Rubric-based assessment\n\nFormat your response as JSON:\n\x7b\n  \"overallFeedback\": \"Overall feedback text...\",\n  \"detailedFeedback\": \"Detailed analysis...\",\n  \"rubricAssessment\": [\n    \x7b\n      \"category\": \"Category Name\",\n      \"score\": 20,\n      \"maxScore\": 25,\n      \"feedback\": \"Feedback for this category...\"\n    \x7d\n  ]\n\x7d")
  | _ => .error ()

/-- The generic fallback prompt (presentations, projects, and any other
type value). -/
def genericPrompt (assignment submission : Json) (assignmentType : Option Json) :
    Except Unit (List Char) :=
  match jsField assignment (lc "title") with
  | .error e => .error e
  | .ok title =>
  match jsField submission (lc "text") with
  | .error e => .error e
  | .ok textV =>
  match rubricBlock assignment with
  | .error e => .error e
  | .ok rub =>
    .ok (lc "You are an expert educator evaluating a " ++ jsDisplayOpt assignmentType ++
      lc " submission.\n\nASSIGNMENT: " ++ jsDisplayOpt title ++
      lc "\n\nSTUDENT SUBMISSION:\n" ++ jsDisplayOpt textV ++
      lc "\n\nRUBRIC:\n" ++ rub ++
      lc "\n\nEvaluate the submission and provide:\n1. Overall feedback\n2. Detailed feedback\n3. Rubric-based assessment\n\nFormat your response as JSON:\n\x7b\n  \"overallFeedback\": \"Overall feedback text...\",\n  \"detailedFeedback\": \"Detailed analysis...\",\n  \"rubricAssessment\": [\n    \x7b\n      \"category\": \"Category Name\",\n      \"score\": 20,\n      \"maxScore\": 25,\n      \"feedback\": \"Feedback for this category...\"\n    \x7d\n  ]\n\x7d")

/-- The five-way prompt dispatch.  `submission.type` is read up front:
`submission` is truthy whenever the route reaches this code, so hoisting
the lazily-evaluated `&&` reads is observationally equal (on a `null`
submission the read throws, as each source condition would). -/
def buildEvalPrompt (assignment submission : Json) (assignmentType : Option Json) :
    Except Unit (List Char) :=
  match jsField submission (lc "type") with
  | .error e => .error e
  | .ok subType =>
    if strictEq assignmentType (some (.str (lc "multiple-choice"))) &&
        strictEq subType (some (.str (lc "multiple-choice"))) then
      mcPrompt assignment submission
    else if strictEq assignmentType (some (.str (lc "essay"))) &&
        strictEq subType (some (.str (lc "essay"))) then
      essayPrompt assignment submission
    else if strictEq assignmentType (some (.str (lc "test"))) &&
        strictEq subType (some (.str (lc "test"))) then
      testPrompt assignment submission
    else if strictEq assignmentType (some (.str (lc "case-study"))) &&
        strictEq subType (some (.str (lc "case-study"))) then
      caseStudyPrompt assignment submission
    else
      genericPrompt assignment submission assignmentType

/-- The addend `(item.score || 0)` made a `+`-ready primitive; reading `.score` on a
`null` entry throws. -/
def scoreAddend (item : Json) : Except Unit JsPrim :=
  match jsField item (lc "score") with
  | .error e => .error e
  | .ok scoreV =>
    .ok (match scoreV with
      | some v => if isTruthy v then toPrimitive v else .num 0
      | none => .num 0)

/-- The fold `rubricAssessment.reduce((sum, item) => sum + (item.score || 0), 0)`. -/
def sumScoresFrom : SVal → JArr → Except Unit SVal
  | acc, .nil => .ok acc
  | acc, .cons item tl =>
    match scoreAddend item with
    | .error e => .error e
    | .ok p => sumScoresFrom (jsAddStep acc p) tl

def sumScores (items : JArr) : Except Unit SVal := sumScoresFrom (.i 0) items

/-- The `results` object of a successful evaluation response. -/
structure EvalResults where
  totalScore : SVal
  maxScore : Option Json
  percentage : JsNum
  feedback : Json
  detailedFeedback : Option Json
  rubricScores : Json
deriving DecidableEq, Repr

/-- From the recovered `evaluationData` to the success payload: the score
summation runs first (so it needs `rubricAssessment` to be an array, or a
call on `undefined` throws), then `assignment.rubric.totalPoints`, the
percentage, and the response fields with their `||` defaults. -/
def processEval (assignment evaluationData : Json) : Except Unit EvalResults :=
  match jsField evaluationData (lc "rubricAssessment") with
  | .error e => .error e
  | .ok ra =>
  match ra with
  | some (.arr items) =>
    match sumScoresFrom (.i 0) items with
    | .error e => .error e
    | .ok totalScore =>
    match jsField assignment (lc "rubric") with
    | .error e => .error e
    | .ok rubric =>
    match jsFieldOpt rubric (lc "totalPoints") with
    | .error e => .error e
    | .ok maxScore =>
    match jsField evaluationData (lc "overallFeedback") with
    | .error e => .error e
    | .ok ofb =>
    match jsField evaluationData (lc "detailedFeedback") with
    | .error e => .error e
    | .ok df =>
    match jsField evaluationData (lc "rubricAssessment") with
    | .error e => .error e
    | .ok ra2 =>
      .ok ⟨totalScore, maxScore,
        percRound (jsDiv (svalToNum totalScore) (toNumberOpt maxScore)),
        (match ofb with
         | some v => if isTruthy v then v else .str (lc "Evaluation complete.")
         | none => .str (lc "Evaluation complete.")),
        df,
        (match ra2 with
         | some v => if isTruthy v then v else .arr .nil
         | none => .arr .nil)⟩
  | _ => .error ()

/-- The request body fields the evaluate route destructures. -/
structure EvalReq where
  assignment : Option Json
  submission : Option Json
  assignmentType : Option Json
deriving DecidableEq, Repr

inductive EvalOutcome where
  | badRequest (msg : List Char)
  | configError
  | serverError
  | success (res : EvalResults)
deriving DecidableEq, Repr

/-- The evaluate route's `POST`, abstracting the upstream model: `apiKey`
says whether `OPENAI_API_KEY` is set and non-empty, `reply` is the text
the model would return, and the second component lists the prompts of the
external calls made (here zero or one). -/
def evaluatePost (req : EvalReq) (apiKey : Bool) (reply : List Char) :
    EvalOutcome × List (List Char) :=
  if !truthyOpt req.assignment then
    (.badRequest (lc "Assignment data is required."), [])
  else if !truthyOpt req.submission then
    (.badRequest (lc "Submission data is required."), [])
  else if !truthyOpt req.assignmentType then
    (.badRequest (lc "Assignment type is required."), [])
  else if !apiKey then (.configError, [])
  else
    match req.assignment, req.submission with
    | some assignment, some submission =>
      (match buildEvalPrompt assignment submission req.assignmentType with
       | .error _ => (.serverError, [])
       | .ok evaluationPrompt =>
         match extractJson reply with
         | none => (.serverError, [evaluationPrompt])
         | some evaluationData =>
           match processEval assignment evaluationData with
           | .error _ => (.serverError, [evaluationPrompt])
           | .ok res => (.success res, [evaluationPrompt]))
    | _, _ => (.serverError, [])

/-- The multiple-choice generation prompt. -/
def mcGenPrompt (query : List Char) : List Char :=
  lc "You are an expert educational content creator. Generate a comprehensive multiple choice test based on the following topic or search query: \"" ++
    query ++
    lc "\"\n\nPlease create:\n\n1. ASSIGNMENT TITLE: A clear, engaging title for the test\n\n2. TEST INSTRUCTIONS: Clear instructions for students on how to complete the test, including time limits, scoring, and any special requirements.\n\n3. ASSIGNMENT OBJECTIVES: List 3-5 specific learning objectives this test assesses.\n\n4. MULTIPLE CHOICE QUESTIONS: Create 10-15 high-quality multiple choice questions. Each question should:\n   - Test understanding, application, or analysis (not just recall)\n   - Have 4 answer options (A, B, C, D)\n   - Have exactly ONE correct answer\n   - Include plausible distractors (wrong answers that seem reasonable)\n   - Be clearly written and unambiguous\n\n5. ANSWER KEY: Provide the correct answer for each question.\n\n6. GRADING RUBRIC: Create a rubric for grading the test with point allocations.\n\nMake the content academic, rigorous, and suitable for university-level coursework. Questions should require critical thinking and demonstrate understanding of the topic.\n\nFormat your response as JSON with the following structure:\n\x7b\n  \"title\": \"Test Title\",\n  \"instructions\": \"Test instructions...\",\n  \"objectives\": [\"Objective 1\", \"Objective 2\", ...],\n  \"questions\": [\n    \x7b\n      \"number\": 1,\n      \"question\": \"Question text?\",\n      \"options\": \x7b\n        \"A\": \"Option A text\",\n        \"B\": \"Option B text\",\n        \"C\": \"Option C text\",\n        \"D\": \"Option D text\"\n      \x7d,\n      \"correctAnswer\": \"A\",\n      \"points\": 5,\n      \"explanation\": \"Brief explanation of why this is correct\"\n    \x7d\n  ],\n  \"answerKey\": \x7b\n    \"1\": \"A\",\n    \"2\": \"B\",\n    ...\n  \x7d,\n  \"rubric\": \x7b\n    \"categories\": [\n      \x7b\n        \"name\": \"Category Name\",\n        \"points\": 50,\n        \"levels\": \x7b\n          \"exemplary\": \x7b \"points\": 50, \"description\": \"...\" \x7d,\n          \"proficient\": \x7b \"points\": 40, \"description\": \"...\" \x7d,\n          \"developing\": \x7b \"points\": 30, \"description\": \"...\" \x7d,\n          \"beginning\": \x7b \"points\": 20, \"description\": \"...\" \x7d\n        \x7d\n      \x7d\n    ],\n    \"totalPoints\": 100\n  \x7d\n\x7d"

/-- The essay generation prompt. -/
def essayGenPrompt (query : List Char) : List Char :=
  lc "You are an expert educational content creator. Generate a comprehensive essay assignment based on the following topic or search query: \"" ++
    query ++
    lc "\"\n\nPlease create:\n\n1. ASSIGNMENT TITLE: A clear, engaging title for the essay assignment\n\n2. ESSAY PROMPT: A detailed, thought-provoking prompt that requires students to analyze, synthesize, and argue. Make it complex enough to require critical thinking and research.\n\n3. ASSIGNMENT OBJECTIVES: List 3-5 specific learning objectives students should achieve.\n\n4. ASSIGNMENT REQUIREMENTS: Provide clear requirements including:\n   - Word count or page length\n   - Formatting requirements\n   - Citation style\n   - Required sources or research components\n   - Any specific elements that must be included\n\n5. GRADING RUBRIC: Create a comprehensive rubric with the following structure:\n   - Criteria categories (e.g., Thesis/Argument, Evidence/Analysis, Organization, Writing Quality, Citations)\n   - Performance levels (Exemplary, Proficient, Developing, Beginning)\n   - Point allocations\n   - Clear descriptions for each performance level\n\nMake the content academic, rigorous, and suitable for university-level coursework.\n\nFormat your response as JSON with the following structure:\n\x7b\n  \"title\": \"Essay Assignment Title\",\n  \"prompt\": \"Essay prompt text...\",\n  \"objectives\": [\"Objective 1\", \"Objective 2\", ...],\n  \"requirements\": [\"Requirement 1\", \"Requirement 2\", ...],\n  \"rubric\": \x7b\n    \"categories\": [\n      \x7b\n        \"name\": \"Category Name\",\n        \"points\": 25,\n        \"levels\": \x7b\n          \"exemplary\": \x7b \"points\": 25, \"description\": \"...\" \x7d,\n          \"proficient\": \x7b \"points\": 20, \"description\": \"...\" \x7d,\n          \"developing\": \x7b \"points\": 15, \"description\": \"...\" \x7d,\n          \"beginning\": \x7b \"points\": 10, \"description\": \"...\" \x7d\n        \x7d\n      \x7d\n    ],\n    \"totalPoints\": 100\n  \x7d\n\x7d"

/-- The test (mixed) generation prompt. -/
def testGenPrompt (query : List Char) : List Char :=
  lc "You are an expert educational content creator. Generate a comprehensive test (mix of question types) based on the following topic or search query: \"" ++
    query ++
    lc "\"\n\nPlease create:\n\n1. ASSIGNMENT TITLE: A clear, engaging title for the test\n\n2. TEST INSTRUCTIONS: Clear instructions for students.\n\n3. ASSIGNMENT OBJECTIVES: List 3-5 specific learning objectives this test assesses.\n\n4. TEST QUESTIONS: Create a mix of question types:\n   - 5-8 multiple choice questions (4 options each)\n   - 3-5 short answer questions\n   - 2-3 essay questions\n   Each question should test understanding and application.\n\n5. ANSWER KEY: Provide answers for all questions.\n\n6. GRADING RUBRIC: Create a rubric with point allocations.\n\nMake the content academic, rigorous, and suitable for university-level coursework.\n\nFormat your response as JSON with the following structure:\n\x7b\n  \"title\": \"Test Title\",\n  \"instructions\": \"Test instructions...\",\n  \"objectives\": [\"Objective 1\", \"Objective 2\", ...],\n  \"questions\": [\n    \x7b\n      \"type\": \"multiple-choice\",\n      \"number\": 1,\n      \"question\": \"Question text?\",\n      \"options\": \x7b\"A\": \"...\", \"B\": \"...\", \"C\": \"...\", \"D\": \"...\"\x7d,\n      \"correctAnswer\": \"A\",\n      \"points\": 5\n    \x7d,\n    \x7b\n      \"type\": \"short-answer\",\n      \"number\": 6,\n      \"question\": \"Question text?\",\n      \"points\": 10\n    \x7d,\n    \x7b\n      \"type\": \"essay\",\n      \"number\": 9,\n      \"question\": \"Question text?\",\n      \"points\": 20\n    \x7d\n  ],\n  \"answerKey\": \x7b\n    \"1\": \"A\",\n    \"6\": \"Sample answer...\",\n    \"9\": \"Sample answer...\"\n  \x7d,\n  \"rubric\": \x7b\n    \"categories\": [...],\n    \"totalPoints\": 100\n  \x7d\n\x7d"

/-- The presentation generation prompt. -/
def presGenPrompt (query : List Char) : List Char :=
  lc "You are an expert educational content creator. Generate a comprehensive presentation assignment based on the following topic or search query: \"" ++
    query ++
    lc "\"\n\nPlease create:\n\n1. ASSIGNMENT TITLE: A clear, engaging title for the presentation assignment\n\n2. PRESENTATION TOPIC/PROMPT: A detailed topic or prompt that students will present on. Make it engaging and require research.\n\n3. ASSIGNMENT OBJECTIVES: List 3-5 specific learning objectives students should achieve.\n\n4. PRESENTATION REQUIREMENTS: Provide clear requirements including:\n   - Duration (e.g., 10-15 minutes)\n   - Required slides or sections\n   - Visual aids requirements\n   - Research requirements\n   - Delivery expectations\n\n5. GRADING RUBRIC: Create a comprehensive rubric covering content, organization, delivery, visual aids, and Q&A handling.\n\nFormat your response as JSON with the following structure:\n\x7b\n  \"title\": \"Presentation Assignment Title\",\n  \"topic\": \"Presentation topic/prompt...\",\n  \"objectives\": [\"Objective 1\", \"Objective 2\", ...],\n  \"requirements\": [\"Requirement 1\", \"Requirement 2\", ...],\n  \"rubric\": \x7b\n    \"categories\": [\n      \x7b\n        \"name\": \"Category Name\",\n        \"points\": 25,\n        \"levels\": \x7b\n          \"exemplary\": \x7b \"points\": 25, \"description\": \"...\" \x7d,\n          \"proficient\": \x7b \"points\": 20, \"description\": \"...\" \x7d,\n          \"developing\": \x7b \"points\": 15, \"description\": \"...\" \x7d,\n          \"beginning\": \x7b \"points\": 10, \"description\": \"...\" \x7d\n        \x7d\n      \x7d\n    ],\n    \"totalPoints\": 100\n  \x7d\n\x7d"

/-- The project generation prompt. -/
def projGenPrompt (query : List Char) : List Char :=
  lc "You are an expert educational content creator. Generate a comprehensive project assignment based on the following topic or search query: \"" ++
    query ++
    lc "\"\n\nPlease create:\n\n1. ASSIGNMENT TITLE: A clear, engaging title for the project\n\n2. PROJECT DESCRIPTION: A detailed description of what students will create or accomplish. Make it engaging and require application of knowledge.\n\n3. ASSIGNMENT OBJECTIVES: List 3-5 specific learning objectives students should achieve.\n\n4. PROJECT REQUIREMENTS: Provide clear requirements including:\n   - Deliverables (what students must submit)\n   - Timeline or milestones\n   - Required components or sections\n   - Research or data requirements\n   - Format specifications\n\n5. GRADING RUBRIC: Create a comprehensive rubric covering all project components.\n\nFormat your response as JSON with the following structure:\n\x7b\n  \"title\": \"Project Assignment Title\",\n  \"description\": \"Project description...\",\n  \"objectives\": [\"Objective 1\", \"Objective 2\", ...],\n  \"requirements\": [\"Requirement 1\", \"Requirement 2\", ...],\n  \"rubric\": \x7b\n    \"categories\": [\n      \x7b\n        \"name\": \"Category Name\",\n        \"points\": 25,\n        \"levels\": \x7b\n          \"exemplary\": \x7b \"points\": 25, \"description\": \"...\" \x7d,\n          \"proficient\": \x7b \"points\": 20, \"description\": \"...\" \x7d,\n          \"developing\": \x7b \"points\": 15, \"description\": \"...\" \x7d,\n          \"beginning\": \x7b \"points\": 10, \"description\": \"...\" \x7d\n        \x7d\n      \x7d\n    ],\n    \"totalPoints\": 100\n  \x7d\n\x7d"

/-- The case-study (the default branch) generation prompt. -/
def caseGenPrompt (query : List Char) : List Char :=
  lc "You are an expert educational content creator. Generate a nuanced case study assignment based on the following topic or search query: \"" ++
    query ++
    lc "\"\n\nPlease create:\n\n1. ASSIGNMENT TITLE: A clear, engaging title for the case study\n\n2. CASE STUDY SCENARIO: A detailed, realistic scenario that students will analyze. Make it complex enough to require critical thinking, with multiple dimensions to consider.\n\n3. ASSIGNMENT OBJECTIVES: List 3-5 specific learning objectives students should achieve.\n\n4. ASSIGNMENT TASKS: Provide clear, specific tasks students must complete. These should be actionable and require analysis, synthesis, and critical thinking.\n\n5. GRADING RUBRIC: Create a comprehensive rubric with the following structure:\n   - Criteria categories (e.g., Analysis, Application, Communication)\n   - Performance levels (Exemplary, Proficient, Developing, Beginning)\n   - Point allocations\n   - Clear descriptions for each performance level\n\nMake the content academic, rigorous, and suitable for university-level coursework. Ensure the case study is nuanced and requires students to think critically about multiple perspectives.\n\nFormat your response as JSON with the following structure:\n\x7b\n  \"title\": \"Assignment Title\",\n  \"scenario\": \"Case study scenario text...\",\n  \"objectives\": [\"Objective 1\", \"Objective 2\", ...],\n  \"tasks\": [\"Task 1\", \"Task 2\", ...],\n  \"rubric\": \x7b\n    \"categories\": [\n      \x7b\n        \"name\": \"Category Name\",\n        \"points\": 25,\n        \"levels\": \x7b\n          \"exemplary\": \x7b \"points\": 25, \"description\": \"...\" \x7d,\n          \"proficient\": \x7b \"points\": 20, \"description\": \"...\" \x7d,\n          \"developing\": \x7b \"points\": 15, \"description\": \"...\" \x7d,\n          \"beginning\": \x7b \"points\": 10, \"description\": \"...\" \x7d\n        \x7d\n      \x7d\n    ],\n    \"totalPoints\": 100\n  \x7d\n\x7d"

/-! ## The generate route (`src/app/api/generate/route.ts`) -/

/-- The request body fields the generate route destructures;
`assignmentType = "case-study"` is the destructuring default for an
absent (`undefined`) property. -/
structure GenReq where
  query : Option Json
  assignmentType : Option Json
deriving DecidableEq, Repr

def genType (req : GenReq) : Json :=
  match req.assignmentType with
  | none => .str (lc "case-study")
  | some v => v

/-- The test `!query || typeof query !== "string" || query.trim().length === 0`
(the trailing test is reached only for strings, so `.trim()` never
throws). -/
def queryInvalid : Option Json → Bool
  | some (.str s) => s.isEmpty || (trimChars s).isEmpty
  | _ => true

def validTypes : List (List Char) :=
  [lc "case-study", lc "multiple-choice", lc "essay", lc "test",
   lc "presentation", lc "project"]

/-- The test `validTypes.includes(assignmentType)`: `includes` compares with
strict equality, so any non-string value is simply not a member. -/
def isValidType : Json → Bool
  | .str s => validTypes.contains s
  | _ => false

/-- The six-way generation-prompt dispatch (`else` is case-study). -/
def genPrompt (query : List Char) (ty : Json) : List Char :=
  if ty = .str (lc "multiple-choice") then mcGenPrompt query
  else if ty = .str (lc "essay") then essayGenPrompt query
  else if ty = .str (lc "test") then testGenPrompt query
  else if ty = .str (lc "presentation") then presGenPrompt query
  else if ty = .str (lc "project") then projGenPrompt query
  else caseGenPrompt query

/-- The validated query as the string it must be. -/
def queryChars : Option Json → List Char
  | some (.str s) => s
  | _ => []

inductive GenOutcome where
  | badRequest (msg : List Char)
  | configError
  | serverError
  | success (assignment : Json) (query : List Char) (assignmentType : Json)
deriving DecidableEq, Repr

/-- The generate route's `POST`, abstracting the upstream model exactly
as `evaluatePost` does. -/
def generatePost (req : GenReq) (apiKey : Bool) (reply : List Char) :
    GenOutcome × List (List Char) :=
  if queryInvalid req.query then
    (.badRequest (lc "Please provide a search query to generate an assignment."), [])
  else if !isValidType (genType req) then
    (.badRequest (lc "Invalid assignment type. Must be one of: case-study, multiple-choice, essay, test, presentation, project"), [])
  else if !apiKey then (.configError, [])
  else
    let assignmentPrompt := genPrompt (queryChars req.query) (genType req)
    match extractJson reply with
    | none => (.serverError, [assignmentPrompt])
    | some assignmentData =>
      (.success assignmentData (queryChars req.query) (genType req), [assignmentPrompt])

/-! ## Spec-side definitions and decidable checks used by the claims -/

/-- Does `pat` occur as a contiguous segment of `t`? -/
def containsSeg : List Char → List Char → Bool
  | [], pat => pat.isEmpty
  | c :: tl, pat => pat.isPrefixOf (c :: tl) || containsSeg tl pat

/-- Does every rubric-assessment entry carry a numeric `score`? -/
def scoresNumeric : JArr → Bool
  | .nil => true
  | .cons x tl =>
    (match x with
     | .obj kvs =>
       (match objGet kvs (lc "score") with
        | some (.num _) => true
        | _ => false)
     | _ => false) && scoresNumeric tl

/-- The spec's "sum of the per-category scores": numeric `score` fields
summed, anything else counting zero. -/
def scoreSum : JArr → Int
  | .nil => 0
  | .cons x tl =>
    (match x with
     | .obj kvs =>
       (match objGet kvs (lc "score") with
        | some (.num n) => n
        | _ => 0)
     | _ => 0) + scoreSum tl

/-- The spec's `round(100 * totalScore / maxScore)`: exact rational
arithmetic, half rounding up. -/
def specRound100 (t m : Int) : Int := ⌊(100 * t : ℚ) / m + 1 / 2⌋

/-- Every question is an object with a numeric `number` and numeric
`points`. -/
def mcShaped : JArr → Bool
  | .nil => true
  | .cons q tl =>
    (match q with
     | .obj qkvs =>
       (match objGet qkvs (lc "number"), objGet qkvs (lc "points") with
        | some (.num _), some (.num _) => true
        | _, _ => false)
     | _ => false) && mcShaped tl

def isPrimVal : Json → Bool
  | .arr _ => false
  | .obj _ => false
  | _ => true

/-- All values of an object are primitives (so `===` coincides with
structural equality on lookups). -/
def primVals : JObj → Bool
  | .nil => true
  | .cons _ v tl => isPrimVal v && primVals tl

/-- The spec's deterministic objective score for the multiple-choice
kind: the sum of `q.points` over the questions whose looked-up student
answer equals the looked-up answer-key entry. -/
def specMcScore (answers answerKey : JObj) : JArr → Int
  | .nil => 0
  | .cons q tl =>
    (match q with
     | .obj qkvs =>
       (match objGet qkvs (lc "number"), objGet qkvs (lc "points") with
        | some (.num n), some (.num p) =>
          if objGet answers (intToChars n) = objGet answerKey (intToChars n) then p else 0
        | _, _ => 0)
     | _ => 0) + specMcScore answers answerKey tl

/-- Is a number a finite integer between 0 and 100? -/
def finInt0to100 : JsNum → Bool
  | .fin n d => d == 1 && decide (0 ≤ n) && decide (n ≤ 100)
  | _ => false

/-- No rubric-assessment entry is `null` (the one shape whose `.score`
read throws). -/
def nullFree : JArr → Bool
  | .nil => true
  | .cons x tl => !(x == Json.null) && nullFree tl

/-- The entry's `score` is absent or falsy, so `score || 0` is `0`. -/
def scoreMissingOrFalsy : Json → Bool
  | .null => false
  | .obj kvs =>
    (match objGet kvs (lc "score") with
     | some v => !(isTruthy v)
     | none => true)
  | _ => true

/-- The shape of the text following a serialized number: it must not begin
with a decimal digit (commas, closing brackets and end-of-input qualify). -/
def noDigitHead : List Char → Prop
  | [] => True
  | c :: _ => isDigitChar c = false

/-- Round-trip statement for one value: with enough fuel, parsing the
serialization (followed by any non-digit-headed rest) returns the value. -/
def RTv (v : Json) : Prop :=
  ∀ f rest, jfuel v < f → noDigitHead rest →
    parseVal f (stringify v ++ rest) = some (v, rest)

/-- Round-trip statement for a non-empty array element list. -/
def RTa (xs : JArr) : Prop :=
  ∀ f rest, xs ≠ .nil → jfuelA xs ≤ f →
    parseElemsNE f (stringifyElems xs ++ ']' :: rest) = some (xs, rest)

/-- Round-trip statement for a non-empty object member list. -/
def RTo (kvs : JObj) : Prop :=
  ∀ f rest, kvs ≠ .nil → jfuelO kvs ≤ f →
    parseMemsNE f (stringifyMems kvs ++ '\x7d' :: rest) = some (kvs, rest)

/-- A text has a `{...}` span exactly when `['{', '}']` occurs as a
sub-sequence: some `{` precedes some `}`. -/
def hasSpan (t : List Char) : Prop := List.Sublist ['\x7b', '\x7d'] t

instance instDecEqExcept {ε α : Type} [DecidableEq ε] [DecidableEq α] :
    DecidableEq (Except ε α) := fun a b =>
  match a, b with
  | .error e, .error f =>
    if h : e = f then .isTrue (by rw [h]) else .isFalse (fun hc => h (Except.error.inj hc))
  | .ok x, .ok y =>
    if h : x = y then .isTrue (by rw [h]) else .isFalse (fun hc => h (Except.ok.inj hc))
  | .error _, .ok _ => .isFalse (fun hc => Except.noConfusion hc)
  | .ok _, .error _ => .isFalse (fun hc => Except.noConfusion hc)

/-- Executable check equivalent to `hasSpan` (`hasSpan_iff` below): after
dropping up to the first `\x7b`, a `\x7d` follows it. -/
def hasSpanB (t : List Char) : Bool :=
  match t.dropWhile (fun c => !(c == '\x7b')) with
  | [] => false
  | _ :: r => r.contains '\x7d'

/-! ## Concrete fixtures used by the claim witnesses and counterexamples -/

/-- A well-formed multiple-choice assignment: two 5-point questions,
answer key `1 ↦ A`, `2 ↦ B`, a one-category rubric, `totalPoints` 50. -/
def cMcAssign : Json := (Json.obj (JObj.cons (lc "title") (Json.str (lc "Quiz")) (JObj.cons (lc "questions") (Json.arr (JArr.cons (Json.obj (JObj.cons (lc "number") (Json.num 1) (JObj.cons (lc "question") (Json.str (lc "Q1")) (JObj.cons (lc "points") (Json.num 5) JObj.nil)))) (JArr.cons (Json.obj (JObj.cons (lc "number") (Json.num 2) (JObj.cons (lc "question") (Json.str (lc "Q2")) (JObj.cons (lc "points") (Json.num 5) JObj.nil)))) JArr.nil))) (JObj.cons (lc "answerKey") (Json.obj (JObj.cons (lc "1") (Json.str (lc "A")) (JObj.cons (lc "2") (Json.str (lc "B")) JObj.nil))) (JObj.cons (lc "rubric") (Json.obj (JObj.cons (lc "categories") (Json.arr (JArr.cons (Json.obj (JObj.cons (lc "name") (Json.str (lc "Accuracy")) (JObj.cons (lc "points") (Json.num 10) (JObj.cons (lc "levels") (Json.obj (JObj.cons (lc "exemplary") (Json.obj (JObj.cons (lc "points") (Json.num 10) (JObj.cons (lc "description") (Json.str (lc "great")) JObj.nil))) (JObj.cons (lc "proficient") (Json.obj (JObj.cons (lc "points") (Json.num 8) (JObj.cons (lc "description") (Json.str (lc "good")) JObj.nil))) (JObj.cons (lc "developing") (Json.obj (JObj.cons (lc "points") (Json.num 5) (JObj.cons (lc "description") (Json.str (lc "ok")) JObj.nil))) (JObj.cons (lc "beginning") (Json.obj (JObj.cons (lc "points") (Json.num 2) (JObj.cons (lc "description") (Json.str (lc "poor")) JObj.nil))) JObj.nil))))) JObj.nil)))) JArr.nil)) (JObj.cons (lc "totalPoints") (Json.num 50) JObj.nil))) JObj.nil)))))

/-- The same assignment with `rubric.totalPoints` 0. -/
def cZeroAssign : Json := (Json.obj (JObj.cons (lc "title") (Json.str (lc "Quiz")) (JObj.cons (lc "questions") (Json.arr (JArr.cons (Json.obj (JObj.cons (lc "number") (Json.num 1) (JObj.cons (lc "question") (Json.str (lc "Q1")) (JObj.cons (lc "points") (Json.num 5) JObj.nil)))) (JArr.cons (Json.obj (JObj.cons (lc "number") (Json.num 2) (JObj.cons (lc "question") (Json.str (lc "Q2")) (JObj.cons (lc "points") (Json.num 5) JObj.nil)))) JArr.nil))) (JObj.cons (lc "answerKey") (Json.obj (JObj.cons (lc "1") (Json.str (lc "A")) (JObj.cons (lc "2") (Json.str (lc "B")) JObj.nil))) (JObj.cons (lc "rubric") (Json.obj (JObj.cons (lc "categories") (Json.arr (JArr.cons (Json.obj (JObj.cons (lc "name") (Json.str (lc "Accuracy")) (JObj.cons (lc "points") (Json.num 10) (JObj.cons (lc "levels") (Json.obj (JObj.cons (lc "exemplary") (Json.obj (JObj.cons (lc "points") (Json.num 10) (JObj.cons (lc "description") (Json.str (lc "great")) JObj.nil))) (JObj.cons (lc "proficient") (Json.obj (JObj.cons (lc "points") (Json.num 8) (JObj.cons (lc "description") (Json.str (lc "good")) JObj.nil))) (JObj.cons (lc "developing") (Json.obj (JObj.cons (lc "points") (Json.num 5) (JObj.cons (lc "description") (Json.str (lc "ok")) JObj.nil))) (JObj.cons (lc "beginning") (Json.obj (JObj.cons (lc "points") (Json.num 2) (JObj.cons (lc "description") (Json.str (lc "poor")) JObj.nil))) JObj.nil))))) JObj.nil)))) JArr.nil)) (JObj.cons (lc "totalPoints") (Json.num 0) JObj.nil))) JObj.nil)))))

/-- A multiple-choice submission answering `A` then `C`. -/
def cMcSub : Json := (Json.obj (JObj.cons (lc "type") (Json.str (lc "multiple-choice")) (JObj.cons (lc "answers") (Json.obj (JObj.cons (lc "1") (Json.str (lc "A")) (JObj.cons (lc "2") (Json.str (lc "C")) JObj.nil))) JObj.nil)))

/-- A mixed-test assignment with questions worth 7 and 3 points. -/
def cTestAssign : Json := (Json.obj (JObj.cons (lc "title") (Json.str (lc "T")) (JObj.cons (lc "questions") (Json.arr (JArr.cons (Json.obj (JObj.cons (lc "type") (Json.str (lc "short-answer")) (JObj.cons (lc "number") (Json.num 1) (JObj.cons (lc "question") (Json.str (lc "Qa")) (JObj.cons (lc "points") (Json.num 7) JObj.nil))))) (JArr.cons (Json.obj (JObj.cons (lc "type") (Json.str (lc "essay")) (JObj.cons (lc "number") (Json.num 2) (JObj.cons (lc "question") (Json.str (lc "Qb")) (JObj.cons (lc "points") (Json.num 3) JObj.nil))))) JArr.nil))) (JObj.cons (lc "answerKey") (Json.obj (JObj.cons (lc "1") (Json.str (lc "A")) (JObj.cons (lc "2") (Json.str (lc "B")) JObj.nil))) (JObj.cons (lc "rubric") (Json.obj (JObj.cons (lc "categories") (Json.arr (JArr.cons (Json.obj (JObj.cons (lc "name") (Json.str (lc "Accuracy")) (JObj.cons (lc "points") (Json.num 9) (JObj.cons (lc "levels") (Json.obj (JObj.cons (lc "exemplary") (Json.obj (JObj.cons (lc "points") (Json.num 9) (JObj.cons (lc "description") (Json.str (lc "great")) JObj.nil))) (JObj.cons (lc "proficient") (Json.obj (JObj.cons (lc "points") (Json.num 8) (JObj.cons (lc "description") (Json.str (lc "good")) JObj.nil))) (JObj.cons (lc "developing") (Json.obj (JObj.cons (lc "points") (Json.num 5) (JObj.cons (lc "description") (Json.str (lc "ok")) JObj.nil))) (JObj.cons (lc "beginning") (Json.obj (JObj.cons (lc "points") (Json.num 2) (JObj.cons (lc "description") (Json.str (lc "poor")) JObj.nil))) JObj.nil))))) JObj.nil)))) JArr.nil)) (JObj.cons (lc "totalPoints") (Json.num 50) JObj.nil))) JObj.nil)))))

/-- A mixed-test submission matching the answer key on both questions. -/
def cTestSub : Json := (Json.obj (JObj.cons (lc "type") (Json.str (lc "test")) (JObj.cons (lc "answers") (Json.obj (JObj.cons (lc "1") (Json.str (lc "A")) (JObj.cons (lc "2") (Json.str (lc "B")) JObj.nil))) JObj.nil)))

/-- A model reply: scores 20 and 15 over two categories. -/
def cReply : List Char := lc "\x7b\"overallFeedback\":\"Good work\",\"detailedFeedback\":\"Details\",\"rubricAssessment\":[\x7b\"category\":\"A\",\"score\":20,\"maxScore\":25,\"feedback\":\"f\"\x7d,\x7b\"category\":\"B\",\"score\":15,\"maxScore\":25,\"feedback\":\"g\"\x7d]\x7d"

/-- The rubric-assessment entries of `cReply`. -/
def cItems : JArr := (JArr.cons (Json.obj (JObj.cons (lc "category") (Json.str (lc "A")) (JObj.cons (lc "score") (Json.num 20) (JObj.cons (lc "maxScore") (Json.num 25) (JObj.cons (lc "feedback") (Json.str (lc "f")) JObj.nil))))) (JArr.cons (Json.obj (JObj.cons (lc "category") (Json.str (lc "B")) (JObj.cons (lc "score") (Json.num 15) (JObj.cons (lc "maxScore") (Json.num 25) (JObj.cons (lc "feedback") (Json.str (lc "g")) JObj.nil))))) JArr.nil))

/-- The success payload the route builds from `cReply` with
`cMcAssign`. -/
def cRes : EvalResults :=
  ⟨.i 35, some (.num 50), .fin 70 1, .str (lc "Good work"), some (.str (lc "Details")),
    .arr cItems⟩

/-- The payload with `cZeroAssign`: the division is unguarded, the
percentage is `Infinity`. -/
def cRes0 : EvalResults :=
  ⟨.i 35, some (.num 0), .inf, .str (lc "Good work"), some (.str (lc "Details")),
    .arr cItems⟩

/-- The multiple-choice assignment with `rubric.totalPoints` 200 instead
of 50 (otherwise identical to `cMcAssign`). -/
def c200Assign : Json := (Json.obj (JObj.cons (lc "title") (Json.str (lc "Quiz")) (JObj.cons (lc "questions") (Json.arr (JArr.cons (Json.obj (JObj.cons (lc "number") (Json.num 1) (JObj.cons (lc "question") (Json.str (lc "Q1")) (JObj.cons (lc "points") (Json.num 5) JObj.nil)))) (JArr.cons (Json.obj (JObj.cons (lc "number") (Json.num 2) (JObj.cons (lc "question") (Json.str (lc "Q2")) (JObj.cons (lc "points") (Json.num 5) JObj.nil)))) JArr.nil))) (JObj.cons (lc "answerKey") (Json.obj (JObj.cons (lc "1") (Json.str (lc "A")) (JObj.cons (lc "2") (Json.str (lc "B")) JObj.nil))) (JObj.cons (lc "rubric") (Json.obj (JObj.cons (lc "categories") (Json.arr (JArr.cons (Json.obj (JObj.cons (lc "name") (Json.str (lc "Accuracy")) (JObj.cons (lc "points") (Json.num 10) (JObj.cons (lc "levels") (Json.obj (JObj.cons (lc "exemplary") (Json.obj (JObj.cons (lc "points") (Json.num 10) (JObj.cons (lc "description") (Json.str (lc "great")) JObj.nil))) (JObj.cons (lc "proficient") (Json.obj (JObj.cons (lc "points") (Json.num 8) (JObj.cons (lc "description") (Json.str (lc "good")) JObj.nil))) (JObj.cons (lc "developing") (Json.obj (JObj.cons (lc "points") (Json.num 5) (JObj.cons (lc "description") (Json.str (lc "ok")) JObj.nil))) (JObj.cons (lc "beginning") (Json.obj (JObj.cons (lc "points") (Json.num 2) (JObj.cons (lc "description") (Json.str (lc "poor")) JObj.nil))) JObj.nil))))) JObj.nil)))) JArr.nil)) (JObj.cons (lc "totalPoints") (Json.num 200) JObj.nil))) JObj.nil)))))

/-- A model reply whose scores 101 and 100 sum to 201. -/
def c201Reply : List Char := lc "\x7b\"overallFeedback\":\"Good work\",\"detailedFeedback\":\"Details\",\"rubricAssessment\":[\x7b\"category\":\"A\",\"score\":101,\"maxScore\":101,\"feedback\":\"f\"\x7d,\x7b\"category\":\"B\",\"score\":100,\"maxScore\":101,\"feedback\":\"g\"\x7d]\x7d"

/-- The rubric-assessment entries of `c201Reply`. -/
def c201Items : JArr := (JArr.cons (Json.obj (JObj.cons (lc "category") (Json.str (lc "A")) (JObj.cons (lc "score") (Json.num 101) (JObj.cons (lc "maxScore") (Json.num 101) (JObj.cons (lc "feedback") (Json.str (lc "f")) JObj.nil))))) (JArr.cons (Json.obj (JObj.cons (lc "category") (Json.str (lc "B")) (JObj.cons (lc "score") (Json.num 100) (JObj.cons (lc "maxScore") (Json.num 101) (JObj.cons (lc "feedback") (Json.str (lc "g")) JObj.nil))))) JArr.nil))

/-- The success payload built from `c201Reply` with `c200Assign`: in
binary64, `(201 / 200) * 100` evaluates to the double just below `100.5`
(exactly `7072058789855231 / 2 ^ 46`), so `Math.round` gives 100, not the
101 of exact rational rounding. -/
def cRes201 : EvalResults :=
  ⟨.i 201, some (.num 200), .fin 100 1, .str (lc "Good work"), some (.str (lc "Details")),
    .arr c201Items⟩

/-- A reply that parses but has no `rubricAssessment`. -/
def cNoRaReply : List Char := lc "\x7b\"overallFeedback\":\"x\"\x7d"

def cNoRaEd : Json := (Json.obj (JObj.cons (lc "overallFeedback") (Json.str (lc "x")) JObj.nil))

/-! ## Round-trip lemmas: `jsonParse` inverts `stringify` -/

theorem isDigitChar_digitChar (m : Nat) : isDigitChar (digitChar m) = true := by
  unfold digitChar; split <;> decide

theorem digitVal_digitChar (m : Nat) (h : m < 10) : digitVal (digitChar m) = m := by
  interval_cases m <;> decide

theorem not_ws_of_digit {c : Char} (h : isDigitChar c = true) : isWsChar c = false := by
  by_contra hw
  simp only [Bool.not_eq_false] at hw
  simp only [isWsChar, Bool.or_eq_true, decide_eq_true_eq] at hw
  rcases hw with ((h1 | h1) | h1) | h1 <;> subst h1 <;> revert h <;> decide

theorem digit_ne {c : Char} (h : isDigitChar c = true) :
    c ≠ 'n' ∧ c ≠ 't' ∧ c ≠ 'f' ∧ c ≠ '"' ∧ c ≠ '[' ∧ c ≠ '\x7b' ∧ c ≠ '-' ∧
      c ≠ ']' ∧ c ≠ '\x7d' := by
  refine ⟨?_, ?_, ?_, ?_, ?_, ?_, ?_, ?_, ?_⟩ <;>
    (intro he; subst he; simp [isDigitChar] at h)

theorem takeWhile_append_all {p : Char → Bool} {l : List Char} (r : List Char)
    (h : ∀ c ∈ l, p c = true) : (l ++ r).takeWhile p = l ++ r.takeWhile p := by
  induction l with
  | nil => simp
  | cons c tl ih =>
    simp only [List.cons_append, List.takeWhile_cons, h c (by simp)]
    rw [ih (fun x hx => h x (by simp [hx]))]
    simp

theorem dropWhile_append_all {p : Char → Bool} {l : List Char} (r : List Char)
    (h : ∀ c ∈ l, p c = true) : (l ++ r).dropWhile p = r.dropWhile p := by
  induction l with
  | nil => simp
  | cons c tl ih =>
    simp only [List.cons_append, List.dropWhile_cons, h c (by simp)]
    exact ih (fun x hx => h x (by simp [hx]))

theorem skipWs_cons_of {c : Char} (r : List Char) (h : isWsChar c = false) :
    skipWs (c :: r) = c :: r := by
  simp [skipWs, List.dropWhile_cons, h]

theorem natCharsF_spec : ∀ f n, n < f →
    (∀ c ∈ natCharsF f n, isDigitChar c = true) ∧ natCharsF f n ≠ [] ∧
      digitsToNat (natCharsF f n) = n := by
  intro f
  induction f with
  | zero => omega
  | succ f ih =>
    intro n hn
    by_cases h10 : n < 10
    · refine ⟨?_, ?_, ?_⟩ <;> simp [natCharsF, h10, digitsToNat, digitVal_digitChar n h10,
        isDigitChar_digitChar]
    · have hdiv : n / 10 < f := by omega
      obtain ⟨hd, hne, hval⟩ := ih (n / 10) hdiv
      refine ⟨?_, ?_, ?_⟩
      · intro c hc
        simp only [natCharsF, if_neg h10, List.mem_append, List.mem_singleton] at hc
        rcases hc with hc | hc
        · exact hd c hc
        · subst hc; exact isDigitChar_digitChar _
      · simp [natCharsF, if_neg h10]
      · simp only [natCharsF, if_neg h10, digitsToNat, List.foldl_append, List.foldl_cons,
          List.foldl_nil]
        have : (natCharsF f (n / 10)).foldl (fun a c => 10 * a + digitVal c) 0 = n / 10 := hval
        rw [this, digitVal_digitChar _ (Nat.mod_lt _ (by omega))]
        omega

theorem natToChars_spec (n : Nat) :
    (∀ c ∈ natToChars n, isDigitChar c = true) ∧ natToChars n ≠ [] ∧
      digitsToNat (natToChars n) = n :=
  natCharsF_spec (n + 1) n (Nat.lt_succ_self n)


theorem parseDigits_natToChars (n : Nat) (rest : List Char) (h : noDigitHead rest) :
    parseDigits (natToChars n ++ rest) = some (n, rest) := by
  obtain ⟨hd, hne, hval⟩ := natToChars_spec n
  have htw : (natToChars n ++ rest).takeWhile isDigitChar = natToChars n := by
    rw [takeWhile_append_all rest hd]
    cases rest with
    | nil => simp
    | cons c tl =>
      simp only [noDigitHead] at h
      simp [List.takeWhile_cons, h]
  have hdw : (natToChars n ++ rest).dropWhile isDigitChar = rest := by
    rw [dropWhile_append_all rest hd]
    cases rest with
    | nil => simp
    | cons c tl =>
      simp only [noDigitHead] at h
      simp [List.dropWhile_cons, h]
  simp [parseDigits, htw, hdw, hne, hval]

theorem isHexChar_hexDigit (m : Nat) (h : m < 16) : isHexChar (hexDigit m) = true := by
  unfold hexDigit
  by_cases h10 : m < 10
  · simp only [if_pos h10]
    have := isDigitChar_digitChar m
    simp [isHexChar, this]
  · interval_cases m <;> simp_all <;> decide

theorem hexVal_hexDigit (m : Nat) (h : m < 16) : hexVal (hexDigit m) = m := by
  by_cases h10 : m < 10
  · unfold hexDigit
    simp only [if_pos h10]
    have h1 := isDigitChar_digitChar m
    unfold hexVal
    rw [if_pos h1]
    interval_cases m <;> decide
  · interval_cases m <;> decide

theorem parseStrBody_escString (s : List Char) : ∀ rest : List Char,
    parseStrBody (escString s ++ '"' :: rest) = some (s, rest) := by
  induction s with
  | nil =>
    intro rest
    show parseStrBody ('"' :: rest) = _
    rw [parseStrBody.eq_def]; simp
  | cons c tl ih =>
    intro rest
    show parseStrBody ((escChar c ++ escString tl) ++ '"' :: rest) = _
    rw [List.append_assoc]
    by_cases hq : c = '"'
    · subst hq
      have hesc : escChar '"' = ['\\', '"'] := by decide
      rw [hesc, List.cons_append, List.cons_append, List.nil_append, parseStrBody.eq_def]
      simp [unescChar, ih rest]
    · by_cases hb : c = '\\'
      · subst hb
        have hesc : escChar '\\' = ['\\', '\\'] := by decide
        rw [hesc, List.cons_append, List.cons_append, List.nil_append, parseStrBody.eq_def]
        simp [unescChar, ih rest]
      · by_cases hn : c = '\n'
        · subst hn
          have hesc : escChar '\n' = ['\\', 'n'] := by decide
          rw [hesc, List.cons_append, List.cons_append, List.nil_append, parseStrBody.eq_def]
          simp [unescChar, ih rest]
        · by_cases ht : c = '\t'
          · subst ht
            have hesc : escChar '\t' = ['\\', 't'] := by decide
            rw [hesc, List.cons_append, List.cons_append, List.nil_append, parseStrBody.eq_def]
            simp [unescChar, ih rest]
          · by_cases hr : c = '\r'
            · subst hr
              have hesc : escChar '\r' = ['\\', 'r'] := by decide
              rw [hesc, List.cons_append, List.cons_append, List.nil_append, parseStrBody.eq_def]
              simp [unescChar, ih rest]
            · by_cases h8 : c = '\x08'
              · subst h8
                have hesc : escChar '\x08' = ['\\', 'b'] := by decide
                rw [hesc, List.cons_append, List.cons_append, List.nil_append,
                  parseStrBody.eq_def]
                simp [unescChar, ih rest]
              · by_cases hc : c = '\x0c'
                · subst hc
                  have hesc : escChar '\x0c' = ['\\', 'f'] := by decide
                  rw [hesc, List.cons_append, List.cons_append, List.nil_append,
                    parseStrBody.eq_def]
                  simp [unescChar, ih rest]
                · by_cases hctl : c.toNat < 32
                  · have hesc : escChar c =
                        ['\\', 'u', '0', '0', hexDigit (c.toNat / 16), hexDigit (c.toNat % 16)] := by
                      simp [escChar, hq, hb, hn, ht, hr, h8, hc, hctl]
                    rw [hesc]
                    have hhi : c.toNat / 16 < 16 := by omega
                    have hlo : c.toNat % 16 < 16 := by omega
                    have hval : (((hexVal '0' * 16 + hexVal '0') * 16 +
                        hexVal (hexDigit (c.toNat / 16))) * 16 +
                        hexVal (hexDigit (c.toNat % 16))) = c.toNat := by
                      rw [hexVal_hexDigit _ hhi, hexVal_hexDigit _ hlo]
                      have h0 : hexVal '0' = 0 := by decide
                      rw [h0]; omega
                    have hx0 : isHexChar '0' = true := by decide
                    simp only [List.cons_append, List.nil_append]
                    rw [parseStrBody.eq_def]
                    simp [hx0, isHexChar_hexDigit _ hhi, isHexChar_hexDigit _ hlo, ih rest, hval]
                  · have hesc : escChar c = [c] := by
                      simp [escChar, hq, hb, hn, ht, hr, h8, hc, hctl]
                    rw [hesc]
                    simp only [List.cons_append, List.nil_append]
                    rw [parseStrBody.eq_def]
                    simp [hq, hb, ih rest]

/-- The first character of a serialized JSON value: it exists, is not
whitespace, and is none of the delimiter characters the parser treats
specially after a value. -/
theorem stringify_head (v : Json) : ∃ c r, stringify v = c :: r ∧ isWsChar c = false ∧
    c ≠ ']' ∧ c ≠ '\x7d' ∧ c ≠ ',' ∧ c ≠ ':' := by
  cases v with
  | null => exact ⟨'n', _, rfl, by decide, by decide, by decide, by decide, by decide⟩
  | bool b =>
    cases b with
    | true => exact ⟨'t', _, rfl, by decide, by decide, by decide, by decide, by decide⟩
    | false => exact ⟨'f', _, rfl, by decide, by decide, by decide, by decide, by decide⟩
  | num i =>
    obtain ⟨hd, hne, -⟩ := natToChars_spec i.natAbs
    by_cases hneg : i < 0
    · refine ⟨'-', natToChars i.natAbs, ?_, by decide, by decide, by decide, by decide, by decide⟩
      simp [stringify, intToChars, hneg]
    · cases hnc : natToChars i.natAbs with
      | nil => exact absurd hnc hne
      | cons c r =>
        have hdc : isDigitChar c = true := hd c (by rw [hnc]; simp)
        obtain ⟨-, -, -, -, h5, h6, -, h8, h9⟩ := digit_ne hdc
        refine ⟨c, r, ?_, not_ws_of_digit hdc, h8, h9, ?_, ?_⟩
        · simp [stringify, intToChars, hneg, hnc]
        · intro he; subst he; revert hdc; decide
        · intro he; subst he; revert hdc; decide
  | str s => exact ⟨'"', _, rfl, by decide, by decide, by decide, by decide, by decide⟩
  | arr xs => exact ⟨'[', _, rfl, by decide, by decide, by decide, by decide, by decide⟩
  | obj kvs => exact ⟨'\x7b', _, rfl, by decide, by decide, by decide, by decide, by decide⟩




theorem rt_null : RTv .null := by
  intro f rest hf hr
  have hpos : 0 < f := by simpa [jfuel] using hf
  obtain ⟨f, rfl⟩ : ∃ f', f = f' + 1 := ⟨f - 1, by omega⟩
  show parseVal (f + 1) ('n' :: (lc "ull" ++ rest)) = some (.null, rest)
  have h1 : skipWs ('n' :: (lc "ull" ++ rest)) = 'n' :: (lc "ull" ++ rest) :=
    skipWs_cons_of _ (by decide)
  rw [parseVal.eq_def]
  simp only [h1]
  rw [show (3 : Nat) = (lc "ull").length from rfl, List.take_left, List.drop_left]
  simp

theorem rt_bool (b : Bool) : RTv (.bool b) := by
  intro f rest hf hr
  have hpos : 0 < f := by simpa [jfuel] using hf
  obtain ⟨f, rfl⟩ : ∃ f', f = f' + 1 := ⟨f - 1, by omega⟩
  cases b with
  | true =>
    show parseVal (f + 1) ('t' :: (lc "rue" ++ rest)) = some (.bool true, rest)
    have h1 : skipWs ('t' :: (lc "rue" ++ rest)) = 't' :: (lc "rue" ++ rest) :=
      skipWs_cons_of _ (by decide)
    rw [parseVal.eq_def]
    simp only [h1]
    rw [show (3 : Nat) = (lc "rue").length from rfl, List.take_left, List.drop_left]
    simp
  | false =>
    show parseVal (f + 1) ('f' :: (lc "alse" ++ rest)) = some (.bool false, rest)
    have h1 : skipWs ('f' :: (lc "alse" ++ rest)) = 'f' :: (lc "alse" ++ rest) :=
      skipWs_cons_of _ (by decide)
    rw [parseVal.eq_def]
    simp only [h1]
    rw [show (4 : Nat) = (lc "alse").length from rfl, List.take_left, List.drop_left]
    simp

theorem rt_num (i : Int) : RTv (.num i) := by
  intro f rest hf hr
  have hpos : 0 < f := by simpa [jfuel] using hf
  obtain ⟨f, rfl⟩ : ∃ f', f = f' + 1 := ⟨f - 1, by omega⟩
  obtain ⟨hd, hne, -⟩ := natToChars_spec i.natAbs
  by_cases hneg : i < 0
  · show parseVal (f + 1) (intToChars i ++ rest) = some (.num i, rest)
    rw [intToChars, if_pos hneg, List.cons_append]
    have h1 : skipWs ('-' :: (natToChars i.natAbs ++ rest)) =
        '-' :: (natToChars i.natAbs ++ rest) := skipWs_cons_of _ (by decide)
    rw [parseVal.eq_def]
    simp only [h1]
    rw [parseDigits_natToChars i.natAbs rest hr]
    simp [Int.natCast_natAbs, abs_of_nonpos (le_of_lt hneg)]
  · show parseVal (f + 1) (intToChars i ++ rest) = some (.num i, rest)
    rw [intToChars, if_neg hneg]
    cases hnc : natToChars i.natAbs with
    | nil => exact absurd hnc hne
    | cons c cs =>
      have hdc : isDigitChar c = true := hd c (by rw [hnc]; simp)
      obtain ⟨hcn, hct, hcf, hcq, hcb, hcbr, hcm, -, -⟩ := digit_ne hdc
      rw [List.cons_append]
      have h1 : skipWs (c :: (cs ++ rest)) = c :: (cs ++ rest) :=
        skipWs_cons_of _ (not_ws_of_digit hdc)
      rw [parseVal.eq_def]
      simp only [h1]
      have htext : c :: (cs ++ rest) = natToChars i.natAbs ++ rest := by
        rw [hnc, List.cons_append]
      simp only [hcn, hct, hcf, hcq, hcbr, hcm, hcb, if_false, hdc, if_true, reduceIte]
      rw [htext, parseDigits_natToChars i.natAbs rest hr]
      have : ((i.natAbs : Nat) : Int) = i := by omega
      simp [this]

theorem rt_str (s : List Char) : RTv (.str s) := by
  intro f rest hf hr
  have hpos : 0 < f := by simpa [jfuel] using hf
  obtain ⟨f, rfl⟩ : ∃ f', f = f' + 1 := ⟨f - 1, by omega⟩
  show parseVal (f + 1) (('"' :: (escString s ++ ['"'])) ++ rest) = some (.str s, rest)
  simp only [List.cons_append, List.append_assoc, List.singleton_append, List.nil_append]
  have h1 : skipWs ('"' :: (escString s ++ '"' :: rest)) =
      '"' :: (escString s ++ '"' :: rest) := skipWs_cons_of _ (by decide)
  rw [parseVal.eq_def]
  simp only [h1]
  rw [parseStrBody_escString s rest]
  simp

theorem stringifyElems_head (x : Json) (tl : JArr) :
    ∃ R, stringifyElems (.cons x tl) = stringify x ++ R := by
  cases tl with
  | nil => exact ⟨[], by simp [stringifyElems]⟩
  | cons y tl2 => exact ⟨',' :: stringifyElems (.cons y tl2), rfl⟩

theorem stringifyMems_head (k : List Char) (v : Json) (tl : JObj) :
    ∃ R, stringifyMems (.cons k v tl) =
      (('"' :: escString k) ++ ('"' :: ':' :: stringify v)) ++ R := by
  cases tl with
  | nil => exact ⟨[], by simp [stringifyMems]⟩
  | cons k2 v2 tl2 => exact ⟨',' :: stringifyMems (.cons k2 v2 tl2), rfl⟩

theorem rta_nil : RTa .nil := fun _ _ hne _ => absurd rfl hne

theorem rto_nil : RTo .nil := fun _ _ hne _ => absurd rfl hne

theorem rta_cons (x : Json) (tl : JArr) (hx : RTv x) (htl : RTa tl) : RTa (.cons x tl) := by
  intro f rest _hne hfuel
  have hpos : 0 < f := by simp [jfuelA] at hfuel; omega
  obtain ⟨f, rfl⟩ : ∃ f', f = f' + 1 := ⟨f - 1, by omega⟩
  cases tl with
  | nil =>
    show parseElemsNE (f + 1) (stringify x ++ ']' :: rest) = some (.cons x .nil, rest)
    have hfx : jfuel x < f := by simp [jfuelA, jfuelO] at hfuel; omega
    have hpv : parseVal f (stringify x ++ ']' :: rest) = some (x, ']' :: rest) :=
      hx f (']' :: rest) hfx (by show isDigitChar ']' = false; decide)
    have h2 : skipWs (']' :: rest) = ']' :: rest := skipWs_cons_of _ (by decide)
    rw [parseElemsNE.eq_def]
    simp only [hpv, h2]
    simp
  | cons y tl2 =>
    show parseElemsNE (f + 1)
        ((stringify x ++ ',' :: stringifyElems (.cons y tl2)) ++ ']' :: rest) =
        some (.cons x (.cons y tl2), rest)
    simp only [List.append_assoc, List.cons_append]
    have hfx : jfuel x < f := by simp [jfuelA] at hfuel; omega
    have hpv : parseVal f (stringify x ++ ',' :: (stringifyElems (.cons y tl2) ++ ']' :: rest)) =
        some (x, ',' :: (stringifyElems (.cons y tl2) ++ ']' :: rest)) :=
      hx f _ hfx (by show isDigitChar ',' = false; decide)
    have h2 : skipWs (',' :: (stringifyElems (.cons y tl2) ++ ']' :: rest)) =
        ',' :: (stringifyElems (.cons y tl2) ++ ']' :: rest) := skipWs_cons_of _ (by decide)
    obtain ⟨c0, r0, hc0, hws0, -, -, -, -⟩ := stringify_head y
    obtain ⟨R, hR⟩ := stringifyElems_head y tl2
    have hshape : stringifyElems (.cons y tl2) ++ ']' :: rest =
        c0 :: (r0 ++ R ++ ']' :: rest) := by
      rw [hR, hc0]; simp [List.append_assoc]
    have h3 : skipWs (stringifyElems (.cons y tl2) ++ ']' :: rest) =
        stringifyElems (.cons y tl2) ++ ']' :: rest := by
      rw [hshape]; exact skipWs_cons_of _ hws0
    have hrec : parseElemsNE f (stringifyElems (.cons y tl2) ++ ']' :: rest) =
        some (.cons y tl2, rest) := by
      apply htl f rest (fun h => JArr.noConfusion h)
      simp [jfuelA] at hfuel ⊢; omega
    rw [parseElemsNE.eq_def]
    simp only [hpv, h2, List.head?_cons, List.tail_cons, h3, hrec]
    simp

theorem rto_cons (k : List Char) (v : Json) (tl : JObj) (hv : RTv v) (htl : RTo tl) :
    RTo (.cons k v tl) := by
  intro f rest _hne hfuel
  have hpos : 0 < f := by simp [jfuelO] at hfuel; omega
  obtain ⟨f, rfl⟩ : ∃ f', f = f' + 1 := ⟨f - 1, by omega⟩
  cases tl with
  | nil =>
    show parseMemsNE (f + 1)
        ((('"' :: escString k) ++ ('"' :: ':' :: stringify v)) ++ '\x7d' :: rest) =
        some (.cons k v .nil, rest)
    simp only [List.append_assoc, List.cons_append]
    have hfv : jfuel v < f := by simp [jfuelO] at hfuel; omega
    have hpv : parseVal f (stringify v ++ '\x7d' :: rest) = some (v, '\x7d' :: rest) :=
      hv f _ hfv (by show isDigitChar '\x7d' = false; decide)
    have h2 : skipWs (':' :: (stringify v ++ '\x7d' :: rest)) =
        ':' :: (stringify v ++ '\x7d' :: rest) := skipWs_cons_of _ (by decide)
    have h3 : skipWs ('\x7d' :: rest) = '\x7d' :: rest := skipWs_cons_of _ (by decide)
    rw [parseMemsNE.eq_def]
    simp only [List.head?_cons, List.tail_cons, parseStrBody_escString, h2, hpv, h3]
    simp
  | cons k2 v2 tl2 =>
    show parseMemsNE (f + 1)
        (((('"' :: escString k) ++ ('"' :: ':' :: stringify v)) ++
          ',' :: stringifyMems (.cons k2 v2 tl2)) ++ '\x7d' :: rest) =
        some (.cons k v (.cons k2 v2 tl2), rest)
    simp only [List.append_assoc, List.cons_append]
    have hfv : jfuel v < f := by simp [jfuelO] at hfuel; omega
    have hpv : parseVal f (stringify v ++ ',' :: (stringifyMems (.cons k2 v2 tl2) ++ '\x7d' :: rest)) =
        some (v, ',' :: (stringifyMems (.cons k2 v2 tl2) ++ '\x7d' :: rest)) :=
      hv f _ hfv (by show isDigitChar ',' = false; decide)
    have h2 : skipWs (':' :: (stringify v ++ ',' :: (stringifyMems (.cons k2 v2 tl2) ++ '\x7d' :: rest))) =
        ':' :: (stringify v ++ ',' :: (stringifyMems (.cons k2 v2 tl2) ++ '\x7d' :: rest)) :=
      skipWs_cons_of _ (by decide)
    have h3 : skipWs (',' :: (stringifyMems (.cons k2 v2 tl2) ++ '\x7d' :: rest)) =
        ',' :: (stringifyMems (.cons k2 v2 tl2) ++ '\x7d' :: rest) := skipWs_cons_of _ (by decide)
    obtain ⟨R, hR⟩ := stringifyMems_head k2 v2 tl2
    have hshape : stringifyMems (.cons k2 v2 tl2) ++ '\x7d' :: rest =
        '"' :: ((escString k2 ++ '"' :: ':' :: stringify v2 ++ R) ++ '\x7d' :: rest) := by
      rw [hR]; simp [List.append_assoc]
    have h4 : skipWs (stringifyMems (.cons k2 v2 tl2) ++ '\x7d' :: rest) =
        stringifyMems (.cons k2 v2 tl2) ++ '\x7d' :: rest := by
      rw [hshape]; exact skipWs_cons_of _ (by decide)
    have hrec : parseMemsNE f (stringifyMems (.cons k2 v2 tl2) ++ '\x7d' :: rest) =
        some (.cons k2 v2 tl2, rest) := by
      apply htl f rest (fun h => JObj.noConfusion h)
      simp [jfuelO] at hfuel ⊢; omega
    rw [parseMemsNE.eq_def]
    simp only [List.head?_cons, List.tail_cons, parseStrBody_escString, h2, hpv, h3, h4, hrec]
    simp

theorem rt_arr (xs : JArr) (ha : RTa xs) : RTv (.arr xs) := by
  intro f rest hf hr
  cases xs with
  | nil =>
    have hpos : 0 < f := by simp [jfuel] at hf; omega
    obtain ⟨f, rfl⟩ : ∃ f', f = f' + 1 := ⟨f - 1, by omega⟩
    show parseVal (f + 1) ('[' :: ']' :: rest) = some (.arr .nil, rest)
    have h1 : skipWs ('[' :: ']' :: rest) = '[' :: ']' :: rest := skipWs_cons_of _ (by decide)
    have h2 : skipWs (']' :: rest) = ']' :: rest := skipWs_cons_of _ (by decide)
    rw [parseVal.eq_def]
    simp only [h1, h2]
    simp
  | cons x tl =>
    have hpos : 0 < f := by simp [jfuel] at hf; omega
    obtain ⟨f, rfl⟩ : ∃ f', f = f' + 1 := ⟨f - 1, by omega⟩
    show parseVal (f + 1) (('[' :: (stringifyElems (.cons x tl) ++ [']'])) ++ rest) =
        some (.arr (.cons x tl), rest)
    simp only [List.cons_append, List.append_assoc, List.singleton_append, List.nil_append]
    obtain ⟨c0, r0, hc0, hws0, hbr0, -, -, -⟩ := stringify_head x
    obtain ⟨R, hR⟩ := stringifyElems_head x tl
    have hshape : stringifyElems (.cons x tl) ++ ']' :: rest =
        c0 :: (r0 ++ R ++ ']' :: rest) := by
      rw [hR, hc0]; simp [List.append_assoc]
    have h1 : skipWs ('[' :: (stringifyElems (.cons x tl) ++ ']' :: rest)) =
        '[' :: (stringifyElems (.cons x tl) ++ ']' :: rest) := skipWs_cons_of _ (by decide)
    have h2 : skipWs (stringifyElems (.cons x tl) ++ ']' :: rest) =
        stringifyElems (.cons x tl) ++ ']' :: rest := by
      rw [hshape]; exact skipWs_cons_of _ hws0
    have hhd : (stringifyElems (.cons x tl) ++ ']' :: rest).head? = some c0 := by
      rw [hshape]; simp
    have hrec : parseElemsNE f (stringifyElems (.cons x tl) ++ ']' :: rest) =
        some (.cons x tl, rest) := by
      apply ha f rest (fun h => JArr.noConfusion h)
      simp [jfuel] at hf; omega
    rw [parseVal.eq_def]
    simp only [h1, h2, hhd, hrec]
    simp [hbr0]

theorem rt_obj (kvs : JObj) (ho : RTo kvs) : RTv (.obj kvs) := by
  intro f rest hf hr
  cases kvs with
  | nil =>
    have hpos : 0 < f := by simp [jfuel] at hf; omega
    obtain ⟨f, rfl⟩ : ∃ f', f = f' + 1 := ⟨f - 1, by omega⟩
    show parseVal (f + 1) ('\x7b' :: '\x7d' :: rest) = some (.obj .nil, rest)
    have h1 : skipWs ('\x7b' :: '\x7d' :: rest) = '\x7b' :: '\x7d' :: rest :=
      skipWs_cons_of _ (by decide)
    have h2 : skipWs ('\x7d' :: rest) = '\x7d' :: rest := skipWs_cons_of _ (by decide)
    rw [parseVal.eq_def]
    simp only [h1, h2]
    simp
  | cons k v tl =>
    have hpos : 0 < f := by simp [jfuel] at hf; omega
    obtain ⟨f, rfl⟩ : ∃ f', f = f' + 1 := ⟨f - 1, by omega⟩
    show parseVal (f + 1) (('\x7b' :: (stringifyMems (.cons k v tl) ++ ['\x7d'])) ++ rest) =
        some (.obj (.cons k v tl), rest)
    simp only [List.cons_append, List.append_assoc, List.singleton_append, List.nil_append]
    obtain ⟨R, hR⟩ := stringifyMems_head k v tl
    have hshape : stringifyMems (.cons k v tl) ++ '\x7d' :: rest =
        '"' :: ((escString k ++ '"' :: ':' :: stringify v ++ R) ++ '\x7d' :: rest) := by
      rw [hR]; simp [List.append_assoc]
    have h1 : skipWs ('\x7b' :: (stringifyMems (.cons k v tl) ++ '\x7d' :: rest)) =
        '\x7b' :: (stringifyMems (.cons k v tl) ++ '\x7d' :: rest) := skipWs_cons_of _ (by decide)
    have h2 : skipWs (stringifyMems (.cons k v tl) ++ '\x7d' :: rest) =
        stringifyMems (.cons k v tl) ++ '\x7d' :: rest := by
      rw [hshape]; exact skipWs_cons_of _ (by decide)
    have hhd : (stringifyMems (.cons k v tl) ++ '\x7d' :: rest).head? = some '"' := by
      rw [hshape]; simp
    have hrec : parseMemsNE f (stringifyMems (.cons k v tl) ++ '\x7d' :: rest) =
        some (.cons k v tl, rest) := by
      apply ho f rest (fun h => JObj.noConfusion h)
      simp [jfuel] at hf; omega
    rw [parseVal.eq_def]
    simp only [h1, h2, hhd, hrec]
    simp

/-- Every JSON value round-trips through serialization and parsing. -/
theorem rtv_every (v : Json) : RTv v :=
  @Json.rec RTv RTa RTo
    rt_null rt_bool rt_num rt_str rt_arr rt_obj rta_nil rta_cons rto_nil rto_cons v

theorem intToChars_ne_nil (i : Int) : intToChars i ≠ [] := by
  obtain ⟨-, hne, -⟩ := natToChars_spec i.natAbs
  unfold intToChars
  split
  · simp
  · exact hne

theorem jfuel_stringify_bound : ∀ v : Json, jfuel v < (stringify v).length := by
  have H := @Json.rec (fun v => jfuel v < (stringify v).length)
    (fun xs => jfuelA xs ≤ 1 + (stringifyElems xs).length)
    (fun kvs => jfuelO kvs ≤ 1 + (stringifyMems kvs).length)
  apply H
  · decide
  · intro b; cases b <;> decide
  · intro i
    have := intToChars_ne_nil i
    have hlen : 0 < (intToChars i).length := List.length_pos.mpr this
    simpa [jfuel, stringify] using hlen
  · intro s; simp [jfuel, stringify]
  · intro xs ih
    cases xs with
    | nil => decide
    | cons x tl =>
      simp only [jfuel, stringify, List.length_cons, List.length_append, List.length_nil]
        at ih ⊢
      omega
  · intro kvs ih
    cases kvs with
    | nil => decide
    | cons k v tl =>
      simp only [jfuel, stringify, List.length_cons, List.length_append, List.length_nil]
        at ih ⊢
      omega
  · decide
  · intro x tl ihx ihtl
    cases tl with
    | nil =>
      simp only [jfuelA, stringifyElems] at ihx ihtl ⊢
      omega
    | cons y tl2 =>
      simp only [jfuelA, stringifyElems, List.length_append, List.length_cons] at ihx ihtl ⊢
      omega
  · decide
  · intro k v tl ihv ihtl
    cases tl with
    | nil =>
      simp only [jfuelO, stringifyMems, List.length_append, List.length_cons] at ihv ihtl ⊢
      omega
    | cons k2 v2 tl2 =>
      simp only [jfuelO, stringifyMems, List.length_append, List.length_cons] at ihv ihtl ⊢
      omega

/-- Parsing inverts serialization in the model (`JSON.parse` of `JSON.stringify`). -/
theorem jsonParse_stringify (v : Json) : jsonParse (stringify v) = some v := by
  have h := rtv_every v ((stringify v).length + 1) []
    (by have := jfuel_stringify_bound v; omega)
    (by show True; trivial)
  rw [List.append_nil] at h
  unfold jsonParse
  rw [h]
  simp [skipWs]

/-! ## Structure of the extraction pipeline around an embedded object

The lemmas below show that trimming, fence-stripping and the brace-span
regex never cut into a serialized object embedded in brace-free
surrounding text, so the fallback recovery returns exactly the object. -/

def braceFree (l : List Char) : Bool := l.all (fun c => !(c == '\x7b') && !(c == '\x7d'))

theorem braceFree_iff {l : List Char} :
    braceFree l = true ↔ ∀ c ∈ l, c ≠ '\x7b' ∧ c ≠ '\x7d' := by
  simp [braceFree, List.all_eq_true]

theorem braceFree_sublist {l l' : List Char} (hs : List.Sublist l' l)
    (h : braceFree l = true) : braceFree l' = true := by
  rw [braceFree_iff] at h ⊢
  exact fun c hc => h c (hs.subset hc)

theorem braceFree_reverse {l : List Char} (h : braceFree l = true) :
    braceFree l.reverse = true := by
  rw [braceFree_iff] at h ⊢
  intro c hc
  exact h c (List.mem_reverse.mp hc)

theorem stringify_obj_shape (kvs : JObj) :
    stringify (.obj kvs) = '\x7b' :: (stringifyMems kvs ++ ['\x7d']) := by
  simp [stringify]

theorem braceSpan_sandwich (q1 q2 mid : List Char)
    (h1 : braceFree q1 = true) (h2 : braceFree q2 = true) :
    braceSpan (q1 ++ ('\x7b' :: (mid ++ ['\x7d'])) ++ q2) =
      some ('\x7b' :: (mid ++ ['\x7d'])) := by
  have hq1 : ∀ c ∈ q1, (!(c == '\x7b')) = true := by
    intro c hc
    have := (braceFree_iff.mp h1) c hc
    simp [this.1]
  have hq2r : ∀ c ∈ q2.reverse, (!(c == '\x7d')) = true := by
    intro c hc
    have := (braceFree_iff.mp h2) c (List.mem_reverse.mp hc)
    simp [this.2]
  simp only [braceSpan]
  rw [List.append_assoc]
  rw [dropWhile_append_all _ hq1]
  have hstop : ('\x7b' :: (mid ++ ['\x7d']) ++ q2).dropWhile (fun c => !(c == '\x7b')) =
      '\x7b' :: (mid ++ ['\x7d']) ++ q2 := by
    simp [List.dropWhile_cons]
  rw [List.cons_append] at hstop ⊢
  rw [hstop]
  simp only [List.isEmpty_cons, Bool.false_eq_true, if_false]
  have hrev : ('\x7b' :: ((mid ++ ['\x7d']) ++ q2)).reverse =
      q2.reverse ++ '\x7d' :: (mid.reverse ++ ['\x7b']) := by
    simp
  rw [hrev, takeWhile_append_all _ hq2r]
  have htw : ('\x7d' :: (mid.reverse ++ ['\x7b'])).takeWhile (fun c => !(c == '\x7d')) = [] := by
    simp [List.takeWhile_cons]
  rw [htw]
  split
  · rename_i hcond
    simp only [List.append_nil, List.length_reverse, List.length_cons, List.length_append,
      List.length_singleton] at hcond
    omega
  · congr 1
    rw [show '\x7b' :: (mid ++ ['\x7d'] ++ q2) = ('\x7b' :: (mid ++ ['\x7d'])) ++ q2 by simp]
    apply List.take_left'
    simp only [List.append_nil, List.length_reverse, List.length_cons, List.length_append,
      List.length_singleton]
    omega

theorem dropWhile_append_stop {p : Char → Bool} (l : List Char) {c : Char} (r : List Char)
    (hc : p c = false) : (l ++ c :: r).dropWhile p = l.dropWhile p ++ c :: r := by
  induction l with
  | nil => simp [List.dropWhile_cons, hc]
  | cons d tl ih =>
    by_cases hd : p d
    · simp [List.dropWhile_cons, hd, ih]
    · simp [List.dropWhile_cons, hd]

theorem trim_sandwich (p1 p2 mid : List Char) :
    ∃ q1 q2, trimChars (p1 ++ ('\x7b' :: (mid ++ ['\x7d'])) ++ p2) =
        q1 ++ ('\x7b' :: (mid ++ ['\x7d'])) ++ q2 ∧
      List.Sublist q1 p1 ∧ List.Sublist q2 p2 := by
  refine ⟨p1.dropWhile isWsChar, (p2.reverse.dropWhile isWsChar).reverse, ?_,
    List.dropWhile_sublist _, ?_⟩
  · unfold trimChars
    have hlead : (p1 ++ ('\x7b' :: (mid ++ ['\x7d'])) ++ p2).dropWhile isWsChar =
        p1.dropWhile isWsChar ++ ('\x7b' :: (mid ++ ['\x7d'])) ++ p2 := by
      rw [List.append_assoc, List.cons_append,
        dropWhile_append_stop p1 _ (by decide), ← List.cons_append, ← List.append_assoc]
    rw [hlead]
    unfold dropTrailWs
    have hrev : (p1.dropWhile isWsChar ++ ('\x7b' :: (mid ++ ['\x7d'])) ++ p2).reverse =
        p2.reverse ++ '\x7d' :: (mid.reverse ++ '\x7b' :: (p1.dropWhile isWsChar).reverse) := by
      simp
    rw [hrev, dropWhile_append_stop _ _ (by decide)]
    simp
  · have h1 : List.Sublist (p2.reverse.dropWhile isWsChar) p2.reverse :=
      List.dropWhile_sublist _
    have h2 := List.reverse_sublist.mpr h1
    simpa using h2

theorem prefix_length_le {pre q1 R : List Char} {c : Char}
    (hp : pre <+: q1 ++ c :: R) (hc : c ∉ pre) : pre.length ≤ q1.length := by
  by_contra hlt
  push_neg at hlt
  obtain ⟨w, hw⟩ := hp
  have htake : pre = (q1 ++ c :: R).take pre.length := by
    rw [← hw, List.take_left]
  rw [List.take_append_eq_append_take] at htake
  obtain ⟨m, hm⟩ : ∃ m, pre.length - q1.length = m + 1 := ⟨pre.length - q1.length - 1, by omega⟩
  rw [hm, List.take_succ_cons] at htake
  exact hc (by rw [htake]; simp)

theorem stripLeadFence_sandwich (n : Nat) (q1 X : List Char) (hn : n ≤ q1.length)
    (hX : X.head? ≠ some '\n') :
    ∃ q1', stripLeadFence n (q1 ++ X) = q1' ++ X ∧ List.Sublist q1' q1 := by
  have hdrop : (q1 ++ X).drop n = q1.drop n ++ X := by
    rw [List.drop_append_eq_append_drop]
    have : n - q1.length = 0 := by omega
    simp [this]
  unfold stripLeadFence
  rw [hdrop]
  cases hq : q1.drop n with
  | nil =>
    simp only [List.nil_append]
    rw [if_neg hX]
    exact ⟨[], by simp, by simp⟩
  | cons d tl =>
    by_cases hd : d = '\n'
    · subst hd
      simp only [List.cons_append, List.head?_cons, if_pos rfl, List.tail_cons]
      refine ⟨tl, rfl, ?_⟩
      have h1 : List.Sublist tl (q1.drop n) := by rw [hq]; exact (List.sublist_cons_self _ _)
      exact h1.trans (List.drop_sublist _ _)
    · simp only [List.cons_append, List.head?_cons]
      rw [if_neg (by simp [hd])]
      refine ⟨d :: tl, rfl, ?_⟩
      rw [← hq]
      exact List.drop_sublist _ _

theorem suffix_triple_backtick_length {W q2 : List Char} (_h2 : braceFree q2 = true)
    (hsuf : lc "```" <:+ (W ++ ['\x7d']) ++ q2) : 3 ≤ q2.length := by
  have hp : (lc "```").reverse <+: ((W ++ ['\x7d']) ++ q2).reverse := by
    rw [ List.reverse_prefix]; exact hsuf
  have hshape : ((W ++ ['\x7d']) ++ q2).reverse = q2.reverse ++ '\x7d' :: W.reverse := by
    simp
  rw [hshape] at hp
  have hnm : '\x7d' ∉ (lc "```").reverse := by decide
  have := prefix_length_le hp hnm
  simpa using this

theorem take_append_of_ge (A B : List Char) (n : Nat) (h : A.length ≤ n) :
    (A ++ B).take n = A ++ B.take (n - A.length) := by
  rw [List.take_append_eq_append_take, List.take_of_length_le h]

theorem stripTrailFence_sandwich (W q2 : List Char) (h2 : braceFree q2 = true) :
    ∃ q2', stripTrailFence ((W ++ ['\x7d']) ++ q2) = (W ++ ['\x7d']) ++ q2' ∧
      List.Sublist q2' q2 := by
  unfold stripTrailFence
  by_cases hsuf : lc "```" <:+ (W ++ ['\x7d']) ++ q2
  · have h3 : 3 ≤ q2.length := suffix_triple_backtick_length h2 hsuf
    rw [if_pos hsuf]
    rw [take_append_of_ge _ _ _ (by simp; omega)]
    set q2a := q2.take (((W ++ ['\x7d']) ++ q2).length - 3 - (W ++ ['\x7d']).length) with hq2a
    have hsub1 : List.Sublist q2a q2 := List.take_sublist _ _
    by_cases hnl : lc "\n" <:+ (W ++ ['\x7d']) ++ q2a
    · rw [if_pos hnl]
      cases hq : q2a with
      | nil =>
        exfalso
        rw [hq, List.append_nil] at hnl
        have hp : (lc "\n").reverse <+: (W ++ ['\x7d']).reverse := by
          rw [ List.reverse_prefix]; exact hnl
        have hrev1 : (lc "\n").reverse = ['\n'] := by decide
        have hrev2 : (W ++ ['\x7d']).reverse = '\x7d' :: W.reverse := by simp
        rw [hrev1, hrev2, List.cons_prefix_cons] at hp
        exact absurd hp.1 (by decide)
      | cons d tl =>
        rw [take_append_of_ge _ _ _ (by simp)]
        refine ⟨_, rfl, ?_⟩
        have hs2 : List.Sublist (d :: tl) q2 := by rw [← hq]; exact hsub1
        exact (List.take_sublist _ _).trans hs2
    · rw [if_neg hnl]
      exact ⟨q2a, rfl, hsub1⟩
  · rw [if_neg hsuf]
    exact ⟨q2, rfl, List.Sublist.refl _⟩

theorem preprocess_sandwich (p1 p2 mid : List Char)
    (h1 : braceFree p1 = true) (h2 : braceFree p2 = true) :
    ∃ q1 q2, preprocess (p1 ++ ('\x7b' :: (mid ++ ['\x7d'])) ++ p2) =
        q1 ++ ('\x7b' :: (mid ++ ['\x7d'])) ++ q2 ∧
      braceFree q1 = true ∧ braceFree q2 = true := by
  obtain ⟨t1, t2, htrim, hs1, hs2⟩ := trim_sandwich p1 p2 mid
  have hb1 : braceFree t1 = true := braceFree_sublist hs1 h1
  have hb2 : braceFree t2 = true := braceFree_sublist hs2 h2
  unfold preprocess
  rw [htrim]
  have hTshape : t1 ++ ('\x7b' :: (mid ++ ['\x7d'])) ++ t2 =
      t1 ++ '\x7b' :: ((mid ++ ['\x7d']) ++ t2) := by
    simp [List.append_assoc]
  by_cases hj : lc "```json" <+: t1 ++ ('\x7b' :: (mid ++ ['\x7d'])) ++ t2
  · rw [if_pos hj]
    have h7' := prefix_length_le (hTshape ▸ hj) (show ('\x7b' : Char) ∉ lc "```json" by decide)
    have h7 : 7 ≤ t1.length := h7'
    obtain ⟨u1, hlead, hsl⟩ := stripLeadFence_sandwich 7 t1
      (('\x7b' :: (mid ++ ['\x7d'])) ++ t2) h7 (by simp)
    rw [show t1 ++ ('\x7b' :: (mid ++ ['\x7d'])) ++ t2 =
        t1 ++ (('\x7b' :: (mid ++ ['\x7d'])) ++ t2) from by simp [List.append_assoc]]
    rw [hlead]
    obtain ⟨u2, htrail, hst⟩ := stripTrailFence_sandwich (u1 ++ '\x7b' :: mid) t2 hb2
    rw [show u1 ++ (('\x7b' :: (mid ++ ['\x7d'])) ++ t2) =
        ((u1 ++ '\x7b' :: mid) ++ ['\x7d']) ++ t2 from by simp [List.append_assoc]]
    rw [htrail]
    exact ⟨u1, u2, by simp [List.append_assoc], braceFree_sublist hsl hb1,
      braceFree_sublist hst hb2⟩
  · rw [if_neg hj]
    by_cases hb : lc "```" <+: t1 ++ ('\x7b' :: (mid ++ ['\x7d'])) ++ t2
    · rw [if_pos hb]
      have h3' := prefix_length_le (hTshape ▸ hb) (show ('\x7b' : Char) ∉ lc "```" by decide)
      have h3 : 3 ≤ t1.length := h3'
      obtain ⟨u1, hlead, hsl⟩ := stripLeadFence_sandwich 3 t1
        (('\x7b' :: (mid ++ ['\x7d'])) ++ t2) h3 (by simp)
      rw [show t1 ++ ('\x7b' :: (mid ++ ['\x7d'])) ++ t2 =
          t1 ++ (('\x7b' :: (mid ++ ['\x7d'])) ++ t2) from by simp [List.append_assoc]]
      rw [hlead]
      obtain ⟨u2, htrail, hst⟩ := stripTrailFence_sandwich (u1 ++ '\x7b' :: mid) t2 hb2
      rw [show u1 ++ (('\x7b' :: (mid ++ ['\x7d'])) ++ t2) =
          ((u1 ++ '\x7b' :: mid) ++ ['\x7d']) ++ t2 from by simp [List.append_assoc]]
      rw [htrail]
      exact ⟨u1, u2, by simp [List.append_assoc], braceFree_sublist hsl hb1,
        braceFree_sublist hst hb2⟩
    · rw [if_neg hb]
      exact ⟨t1, t2, rfl, hb1, hb2⟩

/-- The fallback brace-span recovery returns exactly the embedded object when
the surrounding text is brace-free and direct parsing failed. -/
theorem extractJson_sandwich (p1 p2 : List Char) (kvs : JObj)
    (h1 : braceFree p1 = true) (h2 : braceFree p2 = true)
    (hnp : jsonParse (preprocess (p1 ++ stringify (.obj kvs) ++ p2)) = none) :
    extractJson (p1 ++ stringify (.obj kvs) ++ p2) = some (.obj kvs) := by
  rw [stringify_obj_shape] at hnp ⊢
  obtain ⟨q1, q2, hpre, hq1, hq2⟩ := preprocess_sandwich p1 p2 (stringifyMems kvs) h1 h2
  unfold extractJson
  rw [hpre] at hnp
  rw [hpre, hnp, braceSpan_sandwich q1 q2 (stringifyMems kvs) hq1 hq2]
  have hps := jsonParse_stringify (Json.obj kvs)
  rw [stringify_obj_shape] at hps
  simp [hps]

theorem trimChars_bare (mid : List Char) :
    trimChars ('\x7b' :: (mid ++ ['\x7d'])) = '\x7b' :: (mid ++ ['\x7d']) := by
  obtain ⟨q1, q2, h, hs1, hs2⟩ := trim_sandwich [] [] mid
  rw [List.sublist_nil.mp hs1, List.sublist_nil.mp hs2] at h
  simpa using h

theorem preprocess_bare (mid : List Char) :
    preprocess ('\x7b' :: (mid ++ ['\x7d'])) = '\x7b' :: (mid ++ ['\x7d']) := by
  unfold preprocess
  rw [trimChars_bare]
  rw [if_neg ?h1, if_neg ?h2]
  case h1 =>
    intro h
    rw [show lc "```json" = '`' :: lc "``json" from rfl, List.cons_prefix_cons] at h
    exact absurd h.1 (by decide)
  case h2 =>
    intro h
    rw [show lc "```" = '`' :: lc "``" from rfl, List.cons_prefix_cons] at h
    exact absurd h.1 (by decide)

/-- Extraction recovers an object given back verbatim. -/
theorem extractJson_bare (kvs : JObj) :
    extractJson (stringify (.obj kvs)) = some (.obj kvs) := by
  unfold extractJson
  rw [stringify_obj_shape, preprocess_bare, ← stringify_obj_shape, jsonParse_stringify]

theorem preprocess_fenced (mid : List Char) :
    preprocess (lc "```json\n" ++ ('\x7b' :: (mid ++ ['\x7d'])) ++ lc "\n```") =
      '\x7b' :: (mid ++ ['\x7d']) := by
  unfold preprocess
  have htr : trimChars (lc "```json\n" ++ ('\x7b' :: (mid ++ ['\x7d'])) ++ lc "\n```") =
      lc "```json\n" ++ ('\x7b' :: (mid ++ ['\x7d'])) ++ lc "\n```" := by
    unfold trimChars dropTrailWs
    rw [show lc "```json\n" ++ ('\x7b' :: (mid ++ ['\x7d'])) ++ lc "\n```" =
        '`' :: (lc "``json\n" ++ ('\x7b' :: (mid ++ ['\x7d'])) ++ lc "\n```") from rfl]
    rw [List.dropWhile_cons]
    simp only [show isWsChar '`' = false from by decide, Bool.false_eq_true, if_false]
    have hrev : ('`' :: (lc "``json\n" ++ ('\x7b' :: (mid ++ ['\x7d'])) ++ lc "\n```")).reverse =
        '`' :: ('`' :: '`' :: '\n' :: '\x7d' :: (mid.reverse ++
          ('\x7b' :: (lc "``json\n").reverse ++ ['`'])))  := by
      simp
      rfl
    rw [hrev, List.dropWhile_cons]
    simp only [show isWsChar '`' = false from by decide, Bool.false_eq_true, if_false]
    rw [← hrev, List.reverse_reverse]
  rw [htr]
  have hpref : lc "```json" <+: lc "```json\n" ++ ('\x7b' :: (mid ++ ['\x7d'])) ++ lc "\n```" :=
    ⟨'\n' :: (('\x7b' :: (mid ++ ['\x7d'])) ++ lc "\n```"), by simp [List.append_assoc]; rfl⟩
  rw [if_pos hpref]
  have hlead : stripLeadFence 7
      (lc "```json\n" ++ ('\x7b' :: (mid ++ ['\x7d'])) ++ lc "\n```") =
      ('\x7b' :: (mid ++ ['\x7d'])) ++ lc "\n```" := by
    unfold stripLeadFence
    have hdrop : (lc "```json\n" ++ ('\x7b' :: (mid ++ ['\x7d'])) ++ lc "\n```").drop 7 =
        '\n' :: (('\x7b' :: (mid ++ ['\x7d'])) ++ lc "\n```") := by
      rw [List.append_assoc]
      rfl
    rw [hdrop]
    simp
  rw [hlead]
  unfold stripTrailFence
  have hsuf : lc "```" <:+ ('\x7b' :: (mid ++ ['\x7d'])) ++ lc "\n```" :=
    ⟨('\x7b' :: (mid ++ ['\x7d'])) ++ ['\n'], by simp only [List.append_assoc]; rfl⟩
  rw [if_pos hsuf]
  have hlen : (('\x7b' :: (mid ++ ['\x7d'])) ++ lc "\n```").length - 3 =
      ('\x7b' :: (mid ++ ['\x7d'])).length + 1 := by
    simp [lc]
  rw [hlen, take_append_of_ge _ _ _ (by omega)]
  have htake1 : (lc "\n```").take (('\x7b' :: (mid ++ ['\x7d'])).length + 1 -
      ('\x7b' :: (mid ++ ['\x7d'])).length) = ['\n'] := by
    rw [show ('\x7b' :: (mid ++ ['\x7d'])).length + 1 -
      ('\x7b' :: (mid ++ ['\x7d'])).length = 1 from by omega]
    rfl
  rw [htake1]
  have hnl : lc "\n" <:+ ('\x7b' :: (mid ++ ['\x7d'])) ++ ['\n'] :=
    ⟨'\x7b' :: (mid ++ ['\x7d']), rfl⟩
  rw [if_pos hnl]
  have hlen2 : (('\x7b' :: (mid ++ ['\x7d'])) ++ ['\n']).length - 1 =
      ('\x7b' :: (mid ++ ['\x7d'])).length := by simp
  rw [hlen2, List.take_left]

/-- Extraction recovers an object from a ```json fenced block. -/
theorem extractJson_fenced (kvs : JObj) :
    extractJson (lc "```json\n" ++ stringify (.obj kvs) ++ lc "\n```") = some (.obj kvs) := by
  unfold extractJson
  rw [stringify_obj_shape, preprocess_fenced, ← stringify_obj_shape, jsonParse_stringify]

/-! ## The extraction step is a sub-sequence of its input -/

theorem trimChars_sublist (t : List Char) : List.Sublist (trimChars t) t := by
  unfold trimChars dropTrailWs
  have h1 : List.Sublist ((t.dropWhile isWsChar).reverse.dropWhile isWsChar)
      (t.dropWhile isWsChar).reverse := List.dropWhile_sublist _
  have h2 := List.reverse_sublist.mpr h1
  simp only [List.reverse_reverse] at h2
  exact h2.trans (List.dropWhile_sublist _)

theorem stripLeadFence_sublist (n : Nat) (t : List Char) :
    List.Sublist (stripLeadFence n t) t := by
  unfold stripLeadFence
  by_cases h : (t.drop n).head? = some '\n'
  · rw [if_pos h]
    exact (List.tail_sublist _).trans (List.drop_sublist _ _)
  · rw [if_neg h]
    exact List.drop_sublist _ _

theorem stripTrailFence_sublist (t : List Char) :
    List.Sublist (stripTrailFence t) t := by
  unfold stripTrailFence
  by_cases h1 : lc "```" <:+ t
  · rw [if_pos h1]
    by_cases h2 : lc "\n" <:+ t.take (t.length - 3)
    · rw [if_pos h2]
      exact (List.take_sublist _ _).trans (List.take_sublist _ _)
    · rw [if_neg h2]
      exact List.take_sublist _ _
  · rw [if_neg h1]

theorem preprocess_sublist (t : List Char) : List.Sublist (preprocess t) t := by
  unfold preprocess
  by_cases h1 : lc "```json" <+: trimChars t
  · rw [if_pos h1]
    exact ((stripTrailFence_sublist _).trans (stripLeadFence_sublist _ _)).trans
      (trimChars_sublist t)
  · rw [if_neg h1]
    by_cases h2 : lc "```" <+: trimChars t
    · rw [if_pos h2]
      exact ((stripTrailFence_sublist _).trans (stripLeadFence_sublist _ _)).trans
        (trimChars_sublist t)
    · rw [if_neg h2]
      exact trimChars_sublist t


theorem sublist_pair_decomp {a b : Char} {t : List Char} (h : List.Sublist [a, b] t) :
    ∃ u v w, t = u ++ a :: v ++ b :: w := by
  induction t with
  | nil => nomatch h
  | cons c tl ih =>
    cases h with
    | cons _ h' =>
      obtain ⟨u, v, w, huvw⟩ := ih h'
      exact ⟨c :: u, v, w, by rw [huvw]; rfl⟩
    | cons₂ _ h' =>
      obtain ⟨v, w, hvw⟩ := List.append_of_mem (List.singleton_sublist.mp h')
      exact ⟨[], v, w, by rw [hvw]; rfl⟩

theorem takeWhile_all {p : Char → Bool} {l : List Char} (h : ∀ x ∈ l, p x = true) :
    l.takeWhile p = l := by
  induction l with
  | nil => rfl
  | cons c tl ih =>
    simp [List.takeWhile_cons, h c (by simp), ih (fun x hx => h x (by simp [hx]))]

theorem dropWhile_head_false {p : Char → Bool} {l : List Char} {c : Char} {r : List Char}
    (h : l.dropWhile p = c :: r) : p c = false := by
  induction l with
  | nil => simp [List.dropWhile] at h
  | cons d tl ih =>
    rw [List.dropWhile_cons] at h
    by_cases hd : p d
    · rw [if_pos hd] at h; exact ih h
    · rw [if_neg hd] at h
      obtain ⟨rfl, -⟩ := List.cons.injEq d tl c r ▸ h
      exact Bool.eq_false_iff.mpr hd

theorem hasSpan_of_braceSpan_some {t s : List Char} (h : braceSpan t = some s) :
    hasSpan t := by
  unfold braceSpan at h
  set rest := t.dropWhile (fun c => !(c == '\x7b')) with hrest
  by_cases he : rest.isEmpty
  · rw [if_pos he] at h; exact absurd h (by simp)
  · rw [if_neg he] at h
    by_cases hk : (rest.reverse.takeWhile (fun c => !(c == '\x7d'))).length = rest.length
    · rw [if_pos hk] at h; exact absurd h (by simp)
    · have hne : rest ≠ [] := by
        intro hcon; rw [hcon] at he; exact he (by simp)
      obtain ⟨c, rr, hcr⟩ := List.exists_cons_of_ne_nil hne
      have hc : c = '\x7b' := by
        have := dropWhile_head_false (hrest ▸ hcr)
        simpa using this
      have hmem : '\x7d' ∈ rest := by
        by_contra hnm
        apply hk
        have hall : ∀ x ∈ rest.reverse, (!(x == '\x7d')) = true := by
          intro x hx
          have hxr : x ∈ rest := List.mem_reverse.mp hx
          by_contra hxx
          simp only [Bool.not_eq_true, Bool.not_eq_false', beq_iff_eq] at hxx
          exact hnm (hxx ▸ hxr)
        rw [takeWhile_all hall, List.length_reverse]
      have hmem2 : '\x7d' ∈ rr := by
        rw [hcr] at hmem
        rcases List.mem_cons.mp hmem with hx | hx
        · exact absurd (hx.trans hc) (by decide)
        · exact hx
      obtain ⟨v, w, hvw⟩ := List.append_of_mem hmem2
      have hsub : List.Sublist ['\x7b', '\x7d'] rest := by
        rw [hcr, hc, hvw]
        refine List.Sublist.cons₂ _ ?_
        refine List.singleton_sublist.mpr ?_
        simp
      have hdecomp : t = t.takeWhile (fun c => !(c == '\x7b')) ++ rest := by
        rw [hrest, List.takeWhile_append_dropWhile]
      rw [hasSpan, hdecomp]
      exact hsub.trans (List.sublist_append_right _ _)
theorem dropWhile_eq_drop (p : Char → Bool) (l : List Char) :
    l.dropWhile p = l.drop (l.takeWhile p).length := by
  induction l with
  | nil => rfl
  | cons c tl ih =>
    rw [List.dropWhile_cons, List.takeWhile_cons]
    by_cases hc : p c
    · rw [if_pos hc, if_pos hc]
      simpa using ih
    · rw [if_neg hc, if_neg hc]
      simp

theorem braceSpan_aux {t : List Char}
    (hne : t.dropWhile (fun c => !(c == '\x7b')) ≠ [])
    (hmem : '\x7d' ∈ t.dropWhile (fun c => !(c == '\x7b'))) : braceSpan t ≠ none := by
  unfold braceSpan
  rw [if_neg (show ¬((t.dropWhile (fun c => !(c == '\x7b'))).isEmpty = true) from by
    simpa using hne)]
  by_cases hk : (((t.dropWhile (fun c => !(c == '\x7b'))).reverse.takeWhile
      (fun c => !(c == '\x7d'))).length) = (t.dropWhile (fun c => !(c == '\x7b'))).length
  · exfalso
    have hpre : ((t.dropWhile (fun c => !(c == '\x7b'))).reverse.takeWhile
        (fun c => !(c == '\x7d'))) <+: (t.dropWhile (fun c => !(c == '\x7b'))).reverse :=
      List.takeWhile_prefix _
    have heq := hpre.eq_of_length (by rw [hk, List.length_reverse])
    have hmemrev := List.mem_reverse.mpr hmem
    rw [← heq] at hmemrev
    have := List.mem_takeWhile_imp hmemrev
    simp at this
  · rw [if_neg hk]
    simp

theorem mem_dropWhile_of_hasSpan {t : List Char} (h : hasSpan t) :
    '\x7d' ∈ t.dropWhile (fun c => !(c == '\x7b')) := by
  obtain ⟨u, v, w, rfl⟩ := sublist_pair_decomp h
  have hshape : u ++ '\x7b' :: v ++ '\x7d' :: w = u ++ '\x7b' :: (v ++ '\x7d' :: w) := by
    simp
  rw [hshape]
  have hc : '\x7b' ∉ (u ++ '\x7b' :: (v ++ '\x7d' :: w)).takeWhile
      (fun c => !(c == '\x7b')) := by
    intro hmem
    have := List.mem_takeWhile_imp hmem
    simp at this
  have hpre : (u ++ '\x7b' :: (v ++ '\x7d' :: w)).takeWhile (fun c => !(c == '\x7b')) <+:
      u ++ '\x7b' :: (v ++ '\x7d' :: w) := List.takeWhile_prefix _
  have hplen := prefix_length_le hpre hc
  have hdw := dropWhile_eq_drop (fun c => !(c == '\x7b')) (u ++ '\x7b' :: (v ++ '\x7d' :: w))
  rw [hdw, List.drop_append_eq_append_drop]
  have h0 : ((u ++ '\x7b' :: (v ++ '\x7d' :: w)).takeWhile
      (fun c => !(c == '\x7b'))).length - u.length = 0 := by omega
  rw [h0]
  simp

theorem braceSpan_ne_none_of_hasSpan {t : List Char} (h : hasSpan t) :
    braceSpan t ≠ none :=
  braceSpan_aux (List.ne_nil_of_mem (mem_dropWhile_of_hasSpan h)) (mem_dropWhile_of_hasSpan h)

/-- The span predicate `hasSpan` is settled by the executable check `hasSpanB`. -/
theorem hasSpan_iff (t : List Char) : hasSpan t ↔ hasSpanB t = true := by
  constructor
  · intro h
    have hmem := mem_dropWhile_of_hasSpan h
    unfold hasSpanB
    cases hdd : t.dropWhile (fun c => !(c == '\x7b')) with
    | nil => rw [hdd] at hmem; exact absurd hmem (by simp)
    | cons c r =>
      rw [hdd] at hmem
      have hc : c = '\x7b' := by
        have := dropWhile_head_false hdd
        simpa using this
      rcases List.mem_cons.mp hmem with hx | hx
      · exact absurd (hx.trans hc) (by decide)
      · exact List.elem_eq_true_of_mem hx
  · intro hb
    unfold hasSpanB at hb
    cases hdd : t.dropWhile (fun c => !(c == '\x7b')) with
    | nil => rw [hdd] at hb; exact absurd hb (by simp)
    | cons c r =>
      rw [hdd] at hb
      have hmem : '\x7d' ∈ r := List.mem_of_elem_eq_true hb
      have hc : c = '\x7b' := by
        have := dropWhile_head_false hdd
        simpa using this
      obtain ⟨v, w, hvw⟩ := List.append_of_mem hmem
      have hsub : List.Sublist ['\x7b', '\x7d'] (c :: r) := by
        rw [hc, hvw]
        refine List.Sublist.cons₂ _ ?_
        refine List.singleton_sublist.mpr ?_
        simp
      have hdecomp : t = t.takeWhile (fun c => !(c == '\x7b')) ++ (c :: r) := by
        rw [← hdd, List.takeWhile_append_dropWhile]
      rw [hasSpan, hdecomp]
      exact hsub.trans (List.sublist_append_right _ _)


/-! ## Claim theorems: the generate route's validation and extraction -/

/-- C5: every generate request whose query is missing, non-string, or
empty after trimming, and every request whose assignmentType is not one
of the six enumerated kinds, gets a 400 response and triggers no
external model call. -/
theorem C5_thm (req : GenReq) (k : Bool) (reply : List Char)
    (h : queryInvalid req.query = true ∨ isValidType (genType req) = false) :
    (∃ msg, (generatePost req k reply).1 = .badRequest msg) ∧
      (generatePost req k reply).2 = [] := by
  unfold generatePost
  rcases h with h | h
  · rw [if_pos h]
    exact ⟨⟨_, rfl⟩, rfl⟩
  · by_cases hq : queryInvalid req.query = true
    · rw [if_pos hq]
      exact ⟨⟨_, rfl⟩, rfl⟩
    · rw [if_neg hq, if_pos (by simp [h])]
      exact ⟨⟨_, rfl⟩, rfl⟩

theorem C5_witness :
    queryInvalid (some (Json.str (lc ""))) = true ∧
      ((∃ msg, (generatePost ⟨some (Json.str (lc "")), none⟩ true []).1 = .badRequest msg) ∧
        (generatePost ⟨some (Json.str (lc "")), none⟩ true []).2 = []) :=
  ⟨by decide, C5_thm ⟨some (Json.str (lc "")), none⟩ true [] (Or.inl (by decide))⟩

/-- C6: a valid generate request with no configured API credential gets a
500 configuration error and issues zero external calls; the check runs
before any call is attempted. -/
theorem C6_thm (req : GenReq) (reply : List Char)
    (hq : queryInvalid req.query = false) (ht : isValidType (genType req) = true) :
    generatePost req false reply = (.configError, []) := by
  unfold generatePost
  rw [if_neg (by simp [hq]), if_neg (by simp [ht])]
  rfl

theorem C6_witness :
    queryInvalid (some (Json.str (lc "market analysis"))) = false ∧
      isValidType (genType ⟨some (Json.str (lc "market analysis")), some (Json.str (lc "essay"))⟩) = true ∧
      generatePost ⟨some (Json.str (lc "market analysis")), some (Json.str (lc "essay"))⟩ false [] =
        (.configError, []) :=
  ⟨by decide, by decide,
    C6_thm ⟨some (Json.str (lc "market analysis")), some (Json.str (lc "essay"))⟩ []
      (by decide) (by decide)⟩

/-- C8 (amended): a reply with no `{...}` span whose preprocessed text
does not parse as JSON makes extraction fail, and the generate route then
returns a 500 error after its one model call rather than a success.  (The
unamended claim, conditioning on the raw text not parsing, is refuted by
`C8_cex`: fenced non-object JSON has no span and does not parse raw, yet
extraction succeeds after fence stripping.) -/
theorem C8_thm (raw : List Char) (req : GenReq)
    (hs : ¬ hasSpan raw) (hp : jsonParse (preprocess raw) = none)
    (hq : queryInvalid req.query = false) (ht : isValidType (genType req) = true) :
    extractJson raw = none ∧ (generatePost req true raw).1 = .serverError ∧
      (generatePost req true raw).2.length = 1 := by
  have hext : extractJson raw = none := by
    unfold extractJson
    rw [hp]
    have hnsp : ¬ hasSpan (preprocess raw) :=
      fun hsp => hs (List.Sublist.trans hsp (preprocess_sublist raw))
    have hbs : braceSpan (preprocess raw) = none := by
      cases hb : braceSpan (preprocess raw) with
      | none => rfl
      | some s => exact absurd (hasSpan_of_braceSpan_some hb) hnsp
    rw [hbs]
  refine ⟨hext, ?_, ?_⟩
  · unfold generatePost
    rw [if_neg (by simp [hq]), if_neg (by simp [ht])]
    simp [hext]
  · unfold generatePost
    rw [if_neg (by simp [hq]), if_neg (by simp [ht])]
    simp [hext]

theorem C8_cex :
    ¬ hasSpan (lc "```json\ntrue\n```") ∧
      jsonParse (lc "```json\ntrue\n```") = none ∧
      extractJson (lc "```json\ntrue\n```") = some (.bool true) :=
  ⟨by rw [hasSpan_iff]; decide, by decide, by decide⟩

theorem C8_witness :
    (¬ hasSpan (lc "no json here")) ∧
      jsonParse (preprocess (lc "no json here")) = none ∧
      (extractJson (lc "no json here") = none ∧
        (generatePost ⟨some (Json.str (lc "topic")), none⟩ true (lc "no json here")).1 = .serverError ∧
        (generatePost ⟨some (Json.str (lc "topic")), none⟩ true (lc "no json here")).2.length = 1) :=
  ⟨by rw [hasSpan_iff]; decide, by decide,
    C8_thm (lc "no json here") ⟨some (Json.str (lc "topic")), none⟩
      (by rw [hasSpan_iff]; decide) (by decide) (by decide) (by decide)⟩

/-! ## Claim theorems: the evaluate route's validation -/

/-- C2 (amended): the evaluate route's 400 validation checks exactly the
truthy presence of `assignment`, `submission` and `assignmentType`, each
with its own message and before any external call; it does not check the
kind against the six enumerated values nor the submission's shape
(`C2_cex`: a request whose kind is the number `7` and whose submission is
the number `5` is evaluated successfully). -/
theorem C2_thm (req : EvalReq) (k : Bool) (reply : List Char) :
    (truthyOpt req.assignment = false →
      evaluatePost req k reply = (.badRequest (lc "Assignment data is required."), [])) ∧
    (truthyOpt req.assignment = true → truthyOpt req.submission = false →
      evaluatePost req k reply = (.badRequest (lc "Submission data is required."), [])) ∧
    (truthyOpt req.assignment = true → truthyOpt req.submission = true →
      truthyOpt req.assignmentType = false →
      evaluatePost req k reply = (.badRequest (lc "Assignment type is required."), [])) := by
  refine ⟨?_, ?_, ?_⟩
  · intro ha
    unfold evaluatePost
    rw [if_pos (by simp [ha])]
  · intro ha hs
    unfold evaluatePost
    rw [if_neg (by simp [ha]), if_pos (by simp [hs])]
  · intro ha hs ht
    unfold evaluatePost
    rw [if_neg (by simp [ha]), if_neg (by simp [hs]), if_pos (by simp [ht])]

theorem C2_witness :
    truthyOpt (EvalReq.mk none (some (Json.num 1)) (some (Json.num 1))).assignment = false ∧
      evaluatePost ⟨none, some (Json.num 1), some (Json.num 1)⟩ true [] =
        (.badRequest (lc "Assignment data is required."), []) :=
  ⟨by decide, (C2_thm ⟨none, some (Json.num 1), some (Json.num 1)⟩ true []).1 (by decide)⟩

/-! ## Claim theorems: extraction round-trip -/

/-- C3 (amended): extraction round-trips on a fenced serialized object
and on the bare serialized object unconditionally, and on a serialized
object surrounded by brace-free prose provided the preprocessed whole
does not itself parse as JSON.  (The unamended claim, for arbitrary
brace-free prose, is refuted by `C3_cex`: the prose pair `"["`, `"]"` is
brace-free, yet extraction returns the enclosing array.) -/
theorem C3_thm (kvs : JObj) (p1 p2 : List Char)
    (h1 : braceFree p1 = true) (h2 : braceFree p2 = true)
    (hnp : jsonParse (preprocess (p1 ++ stringify (.obj kvs) ++ p2)) = none) :
    extractJson (lc "```json\n" ++ stringify (.obj kvs) ++ lc "\n```") = some (.obj kvs) ∧
      extractJson (stringify (.obj kvs)) = some (.obj kvs) ∧
      extractJson (p1 ++ stringify (.obj kvs) ++ p2) = some (.obj kvs) :=
  ⟨extractJson_fenced kvs, extractJson_bare kvs, extractJson_sandwich p1 p2 kvs h1 h2 hnp⟩

theorem C3_witness :
    braceFree (lc "some prose ") = true ∧
      braceFree (lc " more prose") = true ∧
      jsonParse (preprocess (lc "some prose " ++
        stringify (.obj (.cons (lc "a") (.num 1) .nil)) ++ lc " more prose")) = none ∧
      (extractJson (lc "```json\n" ++ stringify (.obj (.cons (lc "a") (.num 1) .nil)) ++ lc "\n```") =
          some (.obj (.cons (lc "a") (.num 1) .nil)) ∧
        extractJson (stringify (.obj (.cons (lc "a") (.num 1) .nil))) =
          some (.obj (.cons (lc "a") (.num 1) .nil)) ∧
        extractJson (lc "some prose " ++ stringify (.obj (.cons (lc "a") (.num 1) .nil)) ++
            lc " more prose") = some (.obj (.cons (lc "a") (.num 1) .nil))) :=
  ⟨by decide, by decide, by decide,
    C3_thm (.cons (lc "a") (.num 1) .nil) (lc "some prose ") (lc " more prose")
      (by decide) (by decide) (by decide)⟩

theorem C3_cex :
    braceFree (lc "[") = true ∧ braceFree (lc "]") = true ∧
      extractJson (lc "[" ++ stringify (.obj (.cons (lc "a") (.num 1) .nil)) ++ lc "]") =
        some (.arr (.cons (.obj (.cons (lc "a") (.num 1) .nil)) .nil)) ∧
      extractJson (lc "[" ++ stringify (.obj (.cons (lc "a") (.num 1) .nil)) ++ lc "]") ≠
        some (.obj (.cons (lc "a") (.num 1) .nil)) :=
  ⟨by decide, by decide, by decide, by decide⟩

/-! ## Claim theorems: the score summation -/

theorem sumScoresFrom_ok_of_nullFree :
    ∀ items : JArr, nullFree items = true → ∀ acc, ∃ v, sumScoresFrom acc items = .ok v
  | .nil, _, acc => ⟨acc, rfl⟩
  | .cons x tl, hnf, acc => by
    rw [nullFree] at hnf
    simp only [Bool.and_eq_true, Bool.not_eq_true'] at hnf
    have hx : x ≠ Json.null := by
      intro hcon
      rw [hcon] at hnf
      simp at hnf
    have hsa : ∃ p, scoreAddend x = .ok p := by
      unfold scoreAddend
      cases x with
      | null => exact absurd rfl hx
      | obj kvs => exact ⟨_, rfl⟩
      | bool b => exact ⟨_, rfl⟩
      | num n => exact ⟨_, rfl⟩
      | str s => exact ⟨_, rfl⟩
      | arr xs => exact ⟨_, rfl⟩
    obtain ⟨p, hp⟩ := hsa
    rw [sumScoresFrom, hp]
    exact sumScoresFrom_ok_of_nullFree tl hnf.2 _

/-- C7 (amended): reading the per-entry score never throws on a
rubric-assessment list free of `null` entries, and an entry that is not
`null` whose score is missing or falsy contributes exactly zero to a
numeric running sum.  (The unamended claim is refuted by `C7_cex`: a
truthy non-numeric score such as `true` contributes its coercion `1`, and
a `null` entry makes the summation throw.) -/
theorem C7_thm (items : JArr) (item : Json) (acc : Int)
    (hnf : nullFree items = true) (hnn : item ≠ Json.null)
    (hmf : scoreMissingOrFalsy item = true) :
    (∃ v, sumScores items = .ok v) ∧ scoreAddend item = .ok (.num 0) ∧
      jsAddStep (.i acc) (.num 0) = .i acc := by
  refine ⟨sumScoresFrom_ok_of_nullFree items hnf (.i 0), ?_, ?_⟩
  · unfold scoreAddend
    cases item with
    | null => exact absurd rfl hnn
    | obj kvs =>
      rw [scoreMissingOrFalsy] at hmf
      simp only [jsField]
      cases hg : objGet kvs (lc "score") with
      | none => simp
      | some v =>
        rw [hg] at hmf
        simp only [Bool.not_eq_true'] at hmf
        simp [hmf]
    | bool b => rfl
    | num n => rfl
    | str s => rfl
    | arr xs => rfl
  · show SVal.i (acc + 0) = SVal.i acc
    simp

theorem C7_cex :
    sumScores (.cons (.obj (.cons (lc "score") (.bool true) .nil)) .nil) = .ok (.i 1) ∧
      sumScores (.cons Json.null .nil) = .error () :=
  ⟨by decide, by decide⟩

theorem C7_witness :
    nullFree (.cons (.obj (.cons (lc "score") (.num 5) .nil)) (.cons (.obj .nil) .nil)) = true ∧
      (Json.obj (.cons (lc "score") (.bool false) .nil)) ≠ Json.null ∧
      scoreMissingOrFalsy (.obj (.cons (lc "score") (.bool false) .nil)) = true ∧
      ((∃ v, sumScores (.cons (.obj (.cons (lc "score") (.num 5) .nil)) (.cons (.obj .nil) .nil)) = .ok v) ∧
        scoreAddend (.obj (.cons (lc "score") (.bool false) .nil)) = .ok (.num 0) ∧
        jsAddStep (.i 3) (.num 0) = .i 3) :=
  ⟨by decide, by decide, by decide,
    C7_thm (.cons (.obj (.cons (lc "score") (.num 5) .nil)) (.cons (.obj .nil) .nil))
      (.obj (.cons (lc "score") (.bool false) .nil)) 3 (by decide) (by decide) (by decide)⟩


/-! ## Inversion of a successful evaluation -/

theorem evaluatePost_success {req : EvalReq} {k : Bool} {reply : List Char}
    {res : EvalResults} {calls : List (List Char)}
    (h : evaluatePost req k reply = (.success res, calls)) :
    ∃ assignment submission p ed,
      req.assignment = some assignment ∧ req.submission = some submission ∧
      buildEvalPrompt assignment submission req.assignmentType = .ok p ∧
      extractJson reply = some ed ∧ processEval assignment ed = .ok res ∧
      calls = [p] := by
  unfold evaluatePost at h
  split at h
  · simp at h
  split at h
  · simp at h
  split at h
  · simp at h
  split at h
  · simp at h
  cases hassign : req.assignment with
  | none => rw [hassign] at h; simp at h
  | some assignment =>
    cases hsub : req.submission with
    | none => rw [hassign, hsub] at h; simp at h
    | some submission =>
      rw [hassign, hsub] at h
      dsimp only [] at h
      cases hbp : buildEvalPrompt assignment submission req.assignmentType with
      | error e => rw [hbp] at h; simp at h
      | ok p =>
        rw [hbp] at h
        dsimp only [] at h
        cases hext : extractJson reply with
        | none => rw [hext] at h; simp at h
        | some ed =>
          rw [hext] at h
          dsimp only [] at h
          cases hpe : processEval assignment ed with
          | error e => rw [hpe] at h; simp at h
          | ok r =>
            rw [hpe] at h
            dsimp only [] at h
            simp only [Prod.mk.injEq, EvalOutcome.success.injEq] at h
            exact ⟨assignment, submission, p, ed, rfl, rfl, hbp, rfl,
              by rw [← h.1]; exact hpe, h.2.symm⟩

theorem processEval_ok {assignment ed : Json} {res : EvalResults}
    (h : processEval assignment ed = .ok res) :
    ∃ items, jsField ed (lc "rubricAssessment") = .ok (some (.arr items)) ∧
      res.rubricScores = .arr items ∧
      sumScoresFrom (.i 0) items = .ok res.totalScore ∧
      (∃ rubric, jsField assignment (lc "rubric") = .ok rubric ∧
        jsFieldOpt rubric (lc "totalPoints") = .ok res.maxScore) ∧
      res.percentage = percRound (jsDiv (svalToNum res.totalScore) (toNumberOpt res.maxScore)) := by
  unfold processEval at h
  split at h
  · simp at h
  case _ ra hra =>
    split at h
    case _ items =>
      split at h
      · simp at h
      case _ ts hts =>
        split at h
        · simp at h
        case _ rubric hrubric =>
          split at h
          · simp at h
          case _ ms hms =>
            split at h
            · simp at h
            case _ ofb hofb =>
              split at h
              · simp at h
              case _ df hdf =>
                rw [Except.ok.injEq] at h
                subst h
                exact ⟨items, hra, rfl, hts, ⟨rubric, hrubric, hms⟩, rfl⟩
    · simp at h

theorem scoresNumeric_sum :
    ∀ items : JArr, scoresNumeric items = true →
      ∀ a : Int, sumScoresFrom (.i a) items = .ok (.i (a + scoreSum items))
  | .nil, _, a => by simp [sumScoresFrom, scoreSum]
  | .cons x tl, hnum, a => by
    cases x with
    | obj kvs =>
      simp only [scoresNumeric, Bool.and_eq_true] at hnum
      obtain ⟨hx, htl⟩ := hnum
      cases hg : objGet kvs (lc "score") with
      | none => rw [hg] at hx; simp at hx
      | some v =>
        rw [hg] at hx
        cases v with
        | num n =>
          have hadd : scoreAddend (.obj kvs) = .ok (.num n) := by
            unfold scoreAddend
            simp only [jsField]
            rw [hg]
            by_cases hn : n = 0
            · subst hn
              simp [isTruthy]
            · simp [isTruthy, hn, toPrimitive]
          rw [sumScoresFrom, hadd]
          dsimp only []
          rw [show jsAddStep (SVal.i a) (JsPrim.num n) = SVal.i (a + n) from rfl]
          rw [scoresNumeric_sum tl htl (a + n)]
          simp only [scoreSum]
          rw [hg]
          have harith : a + n + scoreSum tl = a + (n + scoreSum tl) := by ring
          simp [harith]
        | null => simp at hx
        | bool b => simp at hx
        | str s => simp at hx
        | arr xs => simp at hx
        | obj kvs2 => simp at hx
    | null => simp [scoresNumeric] at hnum
    | bool b => simp [scoresNumeric] at hnum
    | num n => simp [scoresNumeric] at hnum
    | str s => simp [scoresNumeric] at hnum
    | arr xs => simp [scoresNumeric] at hnum

theorem finInt_div_zero (a : SVal) : finInt0to100 (percRound (jsDiv a (.i 0))) = false := by
  cases a with
  | i x =>
    by_cases hx : x = 0
    · simp [jsDiv, hx, percRound, jsMul100, jsRound, finInt0to100]
    · by_cases hx2 : 0 < x <;>
        simp [jsDiv, hx, hx2, percRound, jsMul100, jsRound, finInt0to100]
  | nan => rfl
  | s cs => rfl

theorem finInt_div_nan (a : SVal) : finInt0to100 (percRound (jsDiv a .nan)) = false := by
  cases a <;> rfl

theorem processEval_no_ra {assignment ed : Json}
    (hra : ∀ items, jsField ed (lc "rubricAssessment") ≠ .ok (some (.arr items))) :
    ∃ e, processEval assignment ed = .error e := by
  unfold processEval
  cases hf : jsField ed (lc "rubricAssessment") with
  | error e => exact ⟨e, rfl⟩
  | ok ra =>
    cases ra with
    | none => exact ⟨(), rfl⟩
    | some v =>
      cases v with
      | arr items => exact absurd hf (hra items)
      | null => exact ⟨(), rfl⟩
      | bool b => exact ⟨(), rfl⟩
      | num n => exact ⟨(), rfl⟩
      | str s => exact ⟨(), rfl⟩
      | obj kvs => exact ⟨(), rfl⟩

/-! ## Claim theorems: the evaluation results -/

/-- C1: every successful evaluation satisfies the result invariants:
`totalScore` is the sum of the per-category scores of `rubricScores`
(when those scores are numeric), `maxScore` is read from
`assignment.rubric.totalPoints`, and `percentage` is
`Math.round((totalScore / maxScore) * 100)` as evaluated in IEEE binary64
doubles (`percRound` / `jsDiv`).  The spec's exact rational
`round(100 * totalScore / maxScore)` does not hold universally: the two
differ when the double computation lands on the other side of a
half-integer boundary, as `C1_cex` shows at `totalScore 201`,
`maxScore 200`. -/
theorem C1_thm (req : EvalReq) (k : Bool) (reply : List Char) (res : EvalResults)
    (items : JArr) (m : Int)
    (h : (evaluatePost req k reply).1 = .success res)
    (hri : res.rubricScores = .arr items)
    (hnum : scoresNumeric items = true)
    (hm : res.maxScore = some (.num m)) :
    res.totalScore = .i (scoreSum items) ∧
      res.percentage = percRound (jsDiv (.i (scoreSum items)) (.i m)) := by
  have hpair : evaluatePost req k reply = (.success res, (evaluatePost req k reply).2) := by
    rw [← h]
  obtain ⟨a, s, p, ed, _, _, _, _, hpe, _⟩ := evaluatePost_success hpair
  obtain ⟨items', hra', hrs', hsum', hmax', hperc'⟩ := processEval_ok hpe
  have hit : items' = items := by
    rw [hri] at hrs'
    exact (Json.arr.inj hrs').symm
  rw [hit] at hsum'
  have hts : res.totalScore = .i (scoreSum items) := by
    rw [scoresNumeric_sum items hnum 0] at hsum'
    have h2 := Except.ok.inj hsum'
    rw [← h2]
    simp
  refine ⟨hts, ?_⟩
  rw [hperc', hts, hm]
  rfl

theorem C1_witness :
    (evaluatePost ⟨some cMcAssign, some cMcSub, some (Json.str (lc "multiple-choice"))⟩
        true cReply).1 = .success cRes ∧
      cRes.rubricScores = .arr cItems ∧
      scoresNumeric cItems = true ∧
      cRes.maxScore = some (.num 50) ∧
      (cRes.totalScore = .i (scoreSum cItems) ∧
        cRes.percentage = percRound (jsDiv (.i (scoreSum cItems)) (.i 50))) ∧
      scoreSum cItems = 35 ∧ cRes.percentage = .fin 70 1 ∧ specRound100 35 50 = 70 :=
  ⟨by decide, rfl, by decide, rfl,
    C1_thm ⟨some cMcAssign, some cMcSub, some (Json.str (lc "multiple-choice"))⟩ true cReply
      cRes cItems 50 (by decide) rfl (by decide) rfl,
    by decide, rfl, by
      show (⌊(100 * ((35 : Int) : ℚ)) / ((50 : Int) : ℚ) + 1 / 2⌋ : Int) = 70
      norm_num⟩

/-- C1 counterexample: the spec's exact rational rounding clause
`percentage == round(100 * totalScore / maxScore)` fails on the code.
With `rubric.totalPoints` 200 and model scores summing to 201, the route
succeeds with `totalScore` 201, `maxScore` 200, and `percentage` 100: in
binary64, `(201 / 200) * 100` is the double just below `100.5`, so
`Math.round` gives 100, while exact rounding of `100.5` gives 101. -/
theorem C1_cex :
    (evaluatePost ⟨some c200Assign, some cMcSub, some (Json.str (lc "multiple-choice"))⟩
        true c201Reply).1 = .success cRes201 ∧
      cRes201.rubricScores = .arr c201Items ∧
      scoresNumeric c201Items = true ∧
      scoreSum c201Items = 201 ∧
      cRes201.maxScore = some (.num 200) ∧
      cRes201.percentage = .fin 100 1 ∧
      specRound100 201 200 = 101 := by
  refine ⟨by decide, rfl, by decide, by decide, rfl, rfl, ?_⟩
  show (⌊(100 * ((201 : Int) : ℚ)) / ((200 : Int) : ℚ) + 1 / 2⌋ : Int) = 101
  norm_num

/-- C9: when the JSON recovered from the model reply has no
`rubricAssessment` array, the evaluate route's summation throws before
the `|| []` fallback can produce an empty-scores success, so the route
returns a 500 error, never a success. -/
theorem C9_thm (a s : Json) (ty : Option Json) (reply : List Char) (ed : Json)
    (ha : isTruthy a = true) (hs : isTruthy s = true) (ht : truthyOpt ty = true)
    (hbp : (buildEvalPrompt a s ty).isOk = true)
    (hed : extractJson reply = some ed)
    (hra : ∀ items, jsField ed (lc "rubricAssessment") ≠ .ok (some (.arr items))) :
    (evaluatePost ⟨some a, some s, ty⟩ true reply).1 = .serverError := by
  obtain ⟨p, hp⟩ : ∃ p, buildEvalPrompt a s ty = .ok p := by
    cases hb : buildEvalPrompt a s ty with
    | ok p => exact ⟨p, rfl⟩
    | error e => rw [hb] at hbp; exact absurd hbp (by simp [Except.isOk, Except.toBool])
  obtain ⟨e, hpe⟩ := (processEval_no_ra hra : ∃ e, processEval a ed = .error e)
  unfold evaluatePost
  rw [if_neg (by simp [truthyOpt, ha]), if_neg (by simp [truthyOpt, hs]),
    if_neg (by simp [ht]), if_neg (by simp)]
  dsimp only []
  rw [hp]
  dsimp only []
  rw [hed]
  dsimp only []
  rw [hpe]

theorem C9_witness :
    isTruthy cMcAssign = true ∧ isTruthy (Json.num 5) = true ∧
      truthyOpt (some (Json.num 7)) = true ∧
      (buildEvalPrompt cMcAssign (Json.num 5) (some (Json.num 7))).isOk = true ∧
      extractJson cNoRaReply = some cNoRaEd ∧
      (evaluatePost ⟨some cMcAssign, some (Json.num 5), some (Json.num 7)⟩ true
        cNoRaReply).1 = .serverError :=
  ⟨by decide, by decide, by decide, by decide, by decide,
    C9_thm cMcAssign (Json.num 5) (some (Json.num 7)) cNoRaReply cNoRaEd
      (by decide) (by decide) (by decide) (by decide) (by decide)
      (by
        intro items hcontra
        rw [show jsField cNoRaEd (lc "rubricAssessment") = .ok none from by decide] at hcontra
        simp at hcontra)⟩

/-- C10: the percentage division is unguarded: a successful evaluation
whose `assignment.rubric.totalPoints` is zero or absent still succeeds,
but its `percentage` is not a finite integer in 0..100 (it is a signed
infinity or `NaN`). -/
theorem C10_thm (req : EvalReq) (k : Bool) (reply : List Char) (res : EvalResults)
    (h : (evaluatePost req k reply).1 = .success res)
    (hm : res.maxScore = some (.num 0) ∨ res.maxScore = none) :
    finInt0to100 res.percentage = false := by
  have hpair : evaluatePost req k reply = (.success res, (evaluatePost req k reply).2) := by
    rw [← h]
  obtain ⟨a, s, p, ed, _, _, _, _, hpe, _⟩ := evaluatePost_success hpair
  obtain ⟨items', _, _, _, _, hperc'⟩ := processEval_ok hpe
  rcases hm with hm | hm <;> rw [hperc', hm]
  · exact finInt_div_zero _
  · exact finInt_div_nan _

theorem C10_witness :
    (evaluatePost ⟨some cZeroAssign, some cMcSub, some (Json.str (lc "multiple-choice"))⟩
        true cReply).1 = .success cRes0 ∧
      cRes0.maxScore = some (.num 0) ∧
      cRes0.percentage = .inf ∧
      finInt0to100 cRes0.percentage = false :=
  ⟨by decide, rfl, rfl,
    C10_thm ⟨some cZeroAssign, some cMcSub, some (Json.str (lc "multiple-choice"))⟩ true cReply
      cRes0 (by decide) (Or.inl rfl)⟩

theorem C2_cex :
    isValidType (Json.num 7) = false ∧
      (evaluatePost ⟨some cMcAssign, some (Json.num 5), some (Json.num 7)⟩ true cReply).1 =
        .success cRes :=
  ⟨by decide, by decide⟩

/-! ## The multiple-choice objective pre-score (C4) -/

theorem jsField_some_obj {v : Json} {k : List Char} {x : Json}
    (h : jsField v k = .ok (some x)) : ∃ kvs, v = .obj kvs ∧ objGet kvs k = some x := by
  cases v with
  | obj kvs =>
    refine ⟨kvs, rfl, ?_⟩
    simp only [jsField] at h
    exact Except.ok.inj h
  | null => simp [jsField] at h
  | bool b => simp [jsField] at h
  | num n => simp [jsField] at h
  | str s => simp [jsField] at h
  | arr xs => simp [jsField] at h

theorem objGet_primVals : ∀ kvs : JObj, primVals kvs = true →
    ∀ key v, objGet kvs key = some v → isPrimVal v = true
  | .nil, _, key, v, h => by simp [objGet] at h
  | .cons k w tl, hp, key, v, h => by
    simp only [primVals, Bool.and_eq_true] at hp
    rw [objGet] at h
    cases hg : objGet tl key with
    | some r =>
      rw [hg] at h
      have hrv : r = v := Option.some.inj h
      exact hrv ▸ objGet_primVals tl hp.2 key r hg
    | none =>
      rw [hg] at h
      by_cases hk : k = key
      · rw [if_pos hk] at h
        have := Option.some.inj h
        rw [← this]
        exact hp.1
      · rw [if_neg hk] at h
        exact absurd h (by simp)

theorem strictEq_eq {x y : Option Json}
    (hx : ∀ a, x = some a → isPrimVal a = true)
    (hy : ∀ b, y = some b → isPrimVal b = true) :
    (strictEq x y = true) ↔ x = y := by
  cases x with
  | none =>
    cases y with
    | none => simp [strictEq]
    | some b => cases b <;> simp [strictEq]
  | some a =>
    cases y with
    | none => cases a <;> simp [strictEq]
    | some b =>
      have hxa := hx _ rfl
      have hyb := hy _ rfl
      cases a <;> cases b <;> simp_all [strictEq, isPrimVal]

theorem sumPointsFrom_shaped :
    ∀ qs : JArr, mcShaped qs = true → ∀ t : Int,
      ∃ v : Int, sumPointsFrom (.i t) qs = .ok (.i v)
  | .nil, _, t => ⟨t, rfl⟩
  | .cons q tl, hsh, t => by
    cases q with
    | obj qkvs =>
      simp only [mcShaped, Bool.and_eq_true] at hsh
      obtain ⟨hq, htl⟩ := hsh
      cases hgn : objGet qkvs (lc "number") with
      | none => rw [hgn] at hq; simp at hq
      | some nv =>
        rw [hgn] at hq
        cases hgp : objGet qkvs (lc "points") with
        | none => rw [hgp] at hq; cases nv <;> simp at hq
        | some pv =>
          rw [hgp] at hq
          cases nv <;> cases pv <;> simp at hq
          case num.num n p2 =>
            rw [sumPointsFrom]
            simp only [jsField]
            rw [hgp]
            exact sumPointsFrom_shaped tl htl _
    | null => simp [mcShaped] at hsh
    | bool b => simp [mcShaped] at hsh
    | num n => simp [mcShaped] at hsh
    | str s => simp [mcShaped] at hsh
    | arr xs => simp [mcShaped] at hsh

theorem mcProcessFrom_shaped (akvs kkvs : JObj)
    (hpa : primVals akvs = true) (hpk : primVals kkvs = true) :
    ∀ qs : JArr, mcShaped qs = true → ∀ (cc : Int) (t : Int),
      ∃ cc2 ds, mcProcessFrom (some (.obj akvs)) (some (.obj kkvs)) cc (.i t) qs =
        .ok (cc2, .i (t + specMcScore akvs kkvs qs), ds)
  | .nil, _, cc, t => ⟨cc, [], by simp [mcProcessFrom, specMcScore]⟩
  | .cons q tl, hsh, cc, t => by
    cases q with
    | obj qkvs =>
      simp only [mcShaped, Bool.and_eq_true] at hsh
      obtain ⟨hq, htl⟩ := hsh
      cases hgn : objGet qkvs (lc "number") with
      | none => rw [hgn] at hq; simp at hq
      | some nv =>
        rw [hgn] at hq
        cases hgp : objGet qkvs (lc "points") with
        | none => rw [hgp] at hq; cases nv <;> simp at hq
        | some pv =>
          rw [hgp] at hq
          cases nv <;> cases pv <;> simp at hq
          case num.num n p2 =>
            rw [mcProcessFrom]
            simp only [jsField]
            rw [hgn, hgp]
            simp only [jsIdxOpt, jsIdx, jsDisplayOpt, jsToString, jsToStringMethod]
            have hx : ∀ a, objGet akvs (intToChars n) = some a → isPrimVal a = true :=
              fun a ha => objGet_primVals akvs hpa _ a ha
            have hy : ∀ b, objGet kkvs (intToChars n) = some b → isPrimVal b = true :=
              fun b hb => objGet_primVals kkvs hpk _ b hb
            by_cases heq : objGet akvs (intToChars n) = objGet kkvs (intToChars n)
            · have hse : strictEq (objGet akvs (intToChars n))
                  (objGet kkvs (intToChars n)) = true :=
                (strictEq_eq hx hy).mpr heq
              have h1 : (if strictEq (objGet akvs (intToChars n))
                  (objGet kkvs (intToChars n)) then cc + 1 else cc) = cc + 1 := by
                rw [hse]
                exact rfl
              have h2 : (if strictEq (objGet akvs (intToChars n))
                    (objGet kkvs (intToChars n)) then
                  jsAddStep (SVal.i t) (toPrimitiveOpt (some (Json.num p2)))
                  else SVal.i t) = SVal.i (t + p2) := by
                rw [hse]
                exact rfl
              have hspec : specMcScore akvs kkvs (.cons (.obj qkvs) tl) =
                  p2 + specMcScore akvs kkvs tl := by
                simp only [specMcScore]
                rw [hgn, hgp]
                simp [heq]
              obtain ⟨cc2, ds, hrec⟩ :=
                mcProcessFrom_shaped akvs kkvs hpa hpk tl htl (cc + 1) (t + p2)
              simp only [h1, h2, hrec, hspec]
              have harith : t + (p2 + specMcScore akvs kkvs tl) =
                  t + p2 + specMcScore akvs kkvs tl := by ring
              simp only [harith]
              exact ⟨cc2, _, rfl⟩
            · have hse : strictEq (objGet akvs (intToChars n))
                  (objGet kkvs (intToChars n)) = false :=
                Bool.eq_false_iff.mpr (fun hcon => heq ((strictEq_eq hx hy).mp hcon))
              have h1 : (if strictEq (objGet akvs (intToChars n))
                  (objGet kkvs (intToChars n)) then cc + 1 else cc) = cc := by
                rw [hse]
                exact rfl
              have h2 : (if strictEq (objGet akvs (intToChars n))
                    (objGet kkvs (intToChars n)) then
                  jsAddStep (SVal.i t) (toPrimitiveOpt (some (Json.num p2)))
                  else SVal.i t) = SVal.i t := by
                rw [hse]
                exact rfl
              have hspec : specMcScore akvs kkvs (.cons (.obj qkvs) tl) =
                  0 + specMcScore akvs kkvs tl := by
                simp only [specMcScore]
                rw [hgn, hgp]
                simp [heq]
              obtain ⟨cc2, ds, hrec⟩ :=
                mcProcessFrom_shaped akvs kkvs hpa hpk tl htl cc t
              simp only [h1, h2, hrec, hspec]
              have harith : t + (0 + specMcScore akvs kkvs tl) =
                  t + specMcScore akvs kkvs tl := by ring
              simp only [harith]
              exact ⟨cc2, _, rfl⟩
    | null => simp [mcShaped] at hsh
    | bool b => simp [mcShaped] at hsh
    | num n => simp [mcShaped] at hsh
    | str s => simp [mcShaped] at hsh
    | arr xs => simp [mcShaped] at hsh

theorem containsSeg_append_left (x t pat : List Char) (h : containsSeg t pat = true) :
    containsSeg (x ++ t) pat = true := by
  induction x with
  | nil => simpa
  | cons c tl ih =>
    rw [List.cons_append, containsSeg]
    simp [ih]

theorem containsSeg_of_prefix {pat t : List Char} (h : pat <+: t) :
    containsSeg t pat = true := by
  cases t with
  | nil =>
    rw [containsSeg]
    simpa using List.prefix_nil.mp h
  | cons c r =>
    rw [containsSeg]
    simp [ List.isPrefixOf_iff_prefix.mpr h]

theorem containsSeg_pref3 (x y z w : List Char) :
    containsSeg (x ++ (y ++ (z ++ w))) (x ++ (y ++ z)) = true :=
  containsSeg_of_prefix ⟨w, by simp [List.append_assoc]⟩

/-- C4 (amended): only the multiple-choice kind pre-computes the
deterministic objective score; for a well-shaped multiple-choice request
the score -- the sum of `q.points` over questions whose looked-up answer
equals the answer-key entry -- is embedded in the prompt text of the one
external call, after `- Points Earned: `.  (The unamended claim also
asserts this for the test kind, refuted by `C4_cex`: the test branch
lists answers and key but computes no score, and the objective score
never appears in its prompt.) -/
theorem C4_thm (a s : Json) (reply : List Char) (qs : JArr) (akvs kkvs : JObj)
    (hq : jsField a (lc "questions") = .ok (some (.arr qs)))
    (hsh : mcShaped qs = true)
    (hans : jsField s (lc "answers") = .ok (some (.obj akvs)))
    (hkey : jsField a (lc "answerKey") = .ok (some (.obj kkvs)))
    (hpa : primVals akvs = true) (hpk : primVals kkvs = true)
    (hty : jsField s (lc "type") = .ok (some (.str (lc "multiple-choice"))))
    (hrb : (rubricBlock a).isOk = true) :
    ∃ p, buildEvalPrompt a s (some (.str (lc "multiple-choice"))) = .ok p ∧
      containsSeg p (lc "\n- Points Earned: " ++
        intToChars (specMcScore akvs kkvs qs) ++ lc " out of ") = true ∧
      (evaluatePost ⟨some a, some s, some (.str (lc "multiple-choice"))⟩ true reply).2 =
        [p] := by
  obtain ⟨avs, rfl, -⟩ := jsField_some_obj hq
  obtain ⟨svs, rfl, -⟩ := jsField_some_obj hty
  obtain ⟨cc2, ds, hmc⟩ := mcProcessFrom_shaped akvs kkvs hpa hpk qs hsh 0 0
  simp only [zero_add] at hmc
  obtain ⟨tv, htv⟩ := sumPointsFrom_shaped qs hsh 0
  obtain ⟨rub, hrub⟩ : ∃ rub, rubricBlock (.obj avs) = .ok rub := by
    cases hb : rubricBlock (.obj avs) with
    | ok rub => exact ⟨rub, rfl⟩
    | error e => rw [hb] at hrb; exact absurd hrb (by simp [Except.isOk, Except.toBool])
  have hfull : ∃ p, buildEvalPrompt (.obj avs) (.obj svs)
      (some (.str (lc "multiple-choice"))) = .ok p ∧
      containsSeg p (lc "\n- Points Earned: " ++
        intToChars (specMcScore akvs kkvs qs) ++ lc " out of ") = true := by
    unfold buildEvalPrompt
    rw [hty]
    dsimp only []
    rw [if_pos (by decide)]
    unfold mcPrompt
    rw [hq, hans, hkey]
    dsimp only []
    rw [hmc]
    dsimp only []
    simp only [jsField]
    rw [htv]
    dsimp only []
    rw [hrub]
    dsimp only []
    refine ⟨_, rfl, ?_⟩
    simp only [svalStr, List.append_assoc]
    repeat first
      | exact containsSeg_pref3 _ _ _ _
      | apply containsSeg_append_left
  obtain ⟨p, hp, hc⟩ := hfull
  refine ⟨p, hp, hc, ?_⟩
  unfold evaluatePost
  have hty2 : truthyOpt (some (Json.str (lc "multiple-choice"))) = true := by decide
  rw [if_neg (by simp [truthyOpt, isTruthy]), if_neg (by simp [truthyOpt, isTruthy]),
    if_neg (by simp [hty2]), if_neg (by simp)]
  dsimp only []
  rw [hp]
  dsimp only []
  cases extractJson reply with
  | none => rfl
  | some ed =>
    dsimp only []
    cases processEval (.obj avs) ed with
    | error e => rfl
    | ok r => rfl

theorem C4_witness :
    jsField cMcAssign (lc "questions") = .ok (some (.arr ((JArr.cons (Json.obj (JObj.cons (lc "number") (Json.num 1) (JObj.cons (lc "question") (Json.str (lc "Q1")) (JObj.cons (lc "points") (Json.num 5) JObj.nil)))) (JArr.cons (Json.obj (JObj.cons (lc "number") (Json.num 2) (JObj.cons (lc "question") (Json.str (lc "Q2")) (JObj.cons (lc "points") (Json.num 5) JObj.nil)))) JArr.nil))))) ∧
      mcShaped ((JArr.cons (Json.obj (JObj.cons (lc "number") (Json.num 1) (JObj.cons (lc "question") (Json.str (lc "Q1")) (JObj.cons (lc "points") (Json.num 5) JObj.nil)))) (JArr.cons (Json.obj (JObj.cons (lc "number") (Json.num 2) (JObj.cons (lc "question") (Json.str (lc "Q2")) (JObj.cons (lc "points") (Json.num 5) JObj.nil)))) JArr.nil))) = true ∧
      jsField cMcSub (lc "answers") = .ok (some (.obj ((JObj.cons (lc "1") (Json.str (lc "A")) (JObj.cons (lc "2") (Json.str (lc "C")) JObj.nil))))) ∧
      jsField cMcAssign (lc "answerKey") = .ok (some (.obj ((JObj.cons (lc "1") (Json.str (lc "A")) (JObj.cons (lc "2") (Json.str (lc "B")) JObj.nil))))) ∧
      jsField cMcSub (lc "type") = .ok (some (.str (lc "multiple-choice"))) ∧
      (rubricBlock cMcAssign).isOk = true ∧
      specMcScore ((JObj.cons (lc "1") (Json.str (lc "A")) (JObj.cons (lc "2") (Json.str (lc "C")) JObj.nil))) ((JObj.cons (lc "1") (Json.str (lc "A")) (JObj.cons (lc "2") (Json.str (lc "B")) JObj.nil))) ((JArr.cons (Json.obj (JObj.cons (lc "number") (Json.num 1) (JObj.cons (lc "question") (Json.str (lc "Q1")) (JObj.cons (lc "points") (Json.num 5) JObj.nil)))) (JArr.cons (Json.obj (JObj.cons (lc "number") (Json.num 2) (JObj.cons (lc "question") (Json.str (lc "Q2")) (JObj.cons (lc "points") (Json.num 5) JObj.nil)))) JArr.nil))) = 5 ∧
      (∃ p, buildEvalPrompt cMcAssign cMcSub (some (.str (lc "multiple-choice"))) = .ok p ∧
        containsSeg p (lc "\n- Points Earned: " ++
          intToChars (specMcScore ((JObj.cons (lc "1") (Json.str (lc "A")) (JObj.cons (lc "2") (Json.str (lc "C")) JObj.nil))) ((JObj.cons (lc "1") (Json.str (lc "A")) (JObj.cons (lc "2") (Json.str (lc "B")) JObj.nil))) ((JArr.cons (Json.obj (JObj.cons (lc "number") (Json.num 1) (JObj.cons (lc "question") (Json.str (lc "Q1")) (JObj.cons (lc "points") (Json.num 5) JObj.nil)))) (JArr.cons (Json.obj (JObj.cons (lc "number") (Json.num 2) (JObj.cons (lc "question") (Json.str (lc "Q2")) (JObj.cons (lc "points") (Json.num 5) JObj.nil)))) JArr.nil)))) ++ lc " out of ") = true ∧
        (evaluatePost ⟨some cMcAssign, some cMcSub, some (.str (lc "multiple-choice"))⟩
            true cReply).2 = [p]) :=
  ⟨by decide, by decide, by decide, by decide, by decide, by decide, by decide,
    C4_thm cMcAssign cMcSub cReply ((JArr.cons (Json.obj (JObj.cons (lc "number") (Json.num 1) (JObj.cons (lc "question") (Json.str (lc "Q1")) (JObj.cons (lc "points") (Json.num 5) JObj.nil)))) (JArr.cons (Json.obj (JObj.cons (lc "number") (Json.num 2) (JObj.cons (lc "question") (Json.str (lc "Q2")) (JObj.cons (lc "points") (Json.num 5) JObj.nil)))) JArr.nil))) ((JObj.cons (lc "1") (Json.str (lc "A")) (JObj.cons (lc "2") (Json.str (lc "C")) JObj.nil))) ((JObj.cons (lc "1") (Json.str (lc "A")) (JObj.cons (lc "2") (Json.str (lc "B")) JObj.nil)))
      (by decide) (by decide) (by decide) (by decide) (by decide) (by decide)
      (by decide) (by decide)⟩

theorem C4_cex :
    (buildEvalPrompt cTestAssign cTestSub (some (Json.str (lc "test")))).isOk = true ∧
      specMcScore ((JObj.cons (lc "1") (Json.str (lc "A")) (JObj.cons (lc "2") (Json.str (lc "B")) JObj.nil))) ((JObj.cons (lc "1") (Json.str (lc "A")) (JObj.cons (lc "2") (Json.str (lc "B")) JObj.nil))) ((JArr.cons (Json.obj (JObj.cons (lc "type") (Json.str (lc "short-answer")) (JObj.cons (lc "number") (Json.num 1) (JObj.cons (lc "question") (Json.str (lc "Qa")) (JObj.cons (lc "points") (Json.num 7) JObj.nil))))) (JArr.cons (Json.obj (JObj.cons (lc "type") (Json.str (lc "essay")) (JObj.cons (lc "number") (Json.num 2) (JObj.cons (lc "question") (Json.str (lc "Qb")) (JObj.cons (lc "points") (Json.num 3) JObj.nil))))) JArr.nil))) = 10 ∧
      (match buildEvalPrompt cTestAssign cTestSub (some (Json.str (lc "test"))) with
       | .ok p => containsSeg p (lc "10")
       | .error _ => true) = false :=
  ⟨by decide, by decide, by decide⟩
